import Mathlib

/-!
Shallow embedding of the zli CLI framework (gravypower/zli).

The repository snapshot contains several copies of the same logic:
* copy A: the first `Zli` class in `src/src/zli.ts` (inline `parseArgs`),
* copy B: the second `Zli` class in `src/src/zli.ts` (`parseArgs` built on the
  `parseOption` helper, plus an instance-level `shouldDisplayHelp` flag),
* copy C: the `Zli` class in `src/src/index.ts` (`processArguments` built on
  `processOptionValue`, `processCombinedShortFlags` and `processArrayArgs`).

Strings are modelled as `List Char` (`Str`) so that the JavaScript string
operations used by the source (`startsWith`, `includes('=')`, `split('=')`,
`slice(1).split('')`, truthiness of `""`) become simple list functions.
Console output is modelled as a list of `Out` events; schema validation
(`zod`'s `safeParse`) is an opaque total function carried by the schema value;
the exception thrown by `unwrapSchema` is modelled with `Except`.

The resolver loops are written with an explicit fuel parameter (structural
recursion); every entry point passes `args.length + 1` fuel, which is always
sufficient because each loop iteration consumes at least one token index.
-/

deriving instance DecidableEq for Except

set_option synthInstance.maxSize 1024

namespace ZliSpec

/-- JavaScript strings, modelled as lists of characters. -/
abbrev Str := List Char

/-- Embed a Lean string literal as a `Str`. -/
def lit (s : String) : Str := s.toList

/-- JS `s.startsWith(p)`. -/
def startsWithL : Str → Str → Bool
  | [], _ => true
  | _ :: _, [] => false
  | a :: ps, b :: ss => a == b && startsWithL ps ss

/-- Helper for `splitOnChar`: accumulates the current segment (reversed). -/
def splitOnCharAux (c : Char) : Str → Str → List Str
  | [], acc => [acc.reverse]
  | x :: xs, acc =>
      if x == c then acc.reverse :: splitOnCharAux c xs []
      else splitOnCharAux c xs (x :: acc)

/-- JS `s.split(c)`: split at every occurrence of `c` (`"".split(c) = [""]`). -/
def splitOnChar (c : Char) (s : Str) : List Str := splitOnCharAux c s []

/-- The destructuring used by all three copies:
`if (arg.includes('=')) [arg, value] = arg.split('=')` — the token keeps the
part before the first `=`, the value is the part between the first and second
`=`, and everything after the second `=` is discarded. -/
def splitEq (arg : Str) : Str × Option Str :=
  if arg.contains '=' then
    let parts := splitOnChar '=' arg
    (parts.headD [], parts[1]?)
  else (arg, none)

/-- JS falsiness of an optional string value (`undefined` and `""` are falsy). -/
def strFalsy : Option Str → Bool
  | none => true
  | some s => s.isEmpty

/-- JS truthiness of an optional string value. -/
def strTruthy (v : Option Str) : Bool := !(strFalsy v)

/-- The whitespace characters relevant to `String.prototype.trim` here. -/
def isWS (c : Char) : Bool := c == ' ' || c == '\n' || c == '\t' || c == '\r'

/-- JS `s.trim()`. -/
def trimStr (s : Str) : Str :=
  ((s.dropWhile isWS).reverse.dropWhile isWS).reverse

/-- JS `array.join(sep)`. -/
def joinSep (sep : Str) : List Str → Str
  | [] => []
  | [x] => x
  | x :: xs => x ++ sep ++ joinSep sep xs

/-- JS `s || default` for an optional description (`undefined` and `""` are falsy). -/
def orDefaultStr (o : Option Str) (d : Str) : Str :=
  match o with
  | none => d
  | some s => if s.isEmpty then d else s

/-- The zod field kinds the source discriminates on via `instanceof`. -/
inductive FieldType where
  | fstring : FieldType
  | fnumber : FieldType
  | fboolean : FieldType
  | farray (elem : FieldType) : FieldType
  | foptional (inner : FieldType) : FieldType
deriving DecidableEq, Repr

/-- A schema field: its zod type plus the alias/description metadata stored by
the `zod-extensions` prototype augmentation.  `aliases` holds the already
dash-prefixed tokens produced by `.aliases(...)`. -/
structure Field where
  type : FieldType
  aliases : List Str := []
  desc : Option Str := none
deriving DecidableEq, Repr

instance : Inhabited Field := ⟨⟨.fstring, [], none⟩⟩

/-- The `.aliases(...)` extension: a one-character alias is stored as `-a`,
a longer alias as `--alias`. -/
def aliasesExt (raw : List Str) : List Str :=
  raw.map (fun a => if a.length == 1 then '-' :: a else '-' :: '-' :: a)

/-- `fieldType instanceof ZodBoolean ||
(fieldType instanceof ZodOptional && fieldType._def.innerType instanceof ZodBoolean)`. -/
def boolLike : FieldType → Bool
  | .fboolean => true
  | .foptional .fboolean => true
  | _ => false

/-- `fieldType instanceof ZodArray` (an optional-wrapped array is *not* one). -/
def arrayInst : FieldType → Bool
  | .farray _ => true
  | _ => false

/-- `type instanceof ZodNumber || (ZodOptional && inner instanceof ZodNumber)`. -/
def numLike : FieldType → Bool
  | .fnumber => true
  | .foptional .fnumber => true
  | _ => false

/-- zod's `type.isOptional()`: whether the type accepts `undefined`. -/
def isOptionalF : FieldType → Bool
  | .foptional _ => true
  | _ => false

/-- Value of a digit string. -/
def digitsVal (ds : Str) : Nat := ds.foldl (fun acc c => acc * 10 + (c.toNat - 48)) 0

/-- Model of JS `Number(s)` restricted to (optionally negated) decimal integer
numerals; `none` models `NaN`.  (`Number("") = 0`.)  The claims under proof do
not depend on the finer points of the JS numeric grammar: the only property
used is that `parseValue` is total and deterministic. -/
def jsNumber (s : Str) : Option Int :=
  match s with
  | [] => some 0
  | '-' :: ds => if !ds.isEmpty && ds.all (·.isDigit) then some (-(digitsVal ds : Int)) else none
  | ds => if ds.all (·.isDigit) then some (digitsVal ds) else none

/-- Parsed option values. -/
inductive Value where
  | vstr (s : Str) : Value
  | vnum (n : Int) : Value
  | vbool (b : Bool) : Value
  | varr (elems : List Str) : Value
deriving DecidableEq, Repr

/-- The record assembled by the resolvers (JS object, insertion-ordered). -/
abbrev Record := List (Str × Value)

/-- JS `obj[k] = v`: overwrite in place if present, else append. -/
def setKey (r : Record) (k : Str) (v : Value) : Record :=
  if r.any (fun p => p.1 == k) then
    r.map (fun p => if p.1 == k then (k, v) else p)
  else r ++ [(k, v)]

/-- The per-parse alias table (JS `Map<string, string>`). -/
abbrev OptMap := List (Str × Str)

/-- JS `map.set(k, v)`: overwrite in place if present, else append. -/
def mapSet (m : OptMap) (k v : Str) : OptMap :=
  if m.any (fun p => p.1 == k) then
    m.map (fun p => if p.1 == k then (k, v) else p)
  else m ++ [(k, v)]

/-- JS `map.get(k)`. -/
def mapGet (m : OptMap) (k : Str) : Option Str :=
  (m.find? (fun p => p.1 == k)).map (·.2)

/-- The unwrapped object schema's shape: ordered fields. -/
abbrev Shape := List (Str × Field)

/-- JS `schemaShape[key]`. -/
def shapeGet (sh : Shape) (k : Str) : Option Field :=
  (sh.find? (fun p => p.1 == k)).map (·.2)

/-- `parseValue` (identical in all three copies). -/
def parseValue (value : Str) (t : FieldType) : Value :=
  if numLike t then
    match jsNumber value with
    | some n => .vnum n
    | none => .vstr value
  else if boolLike t then
    if value == lit "true" || value == lit "false" then .vbool (value == lit "true")
    else .vstr value
  else .vstr value

/-- `parseValue` applied through an optional field lookup: JS
`undefined instanceof X` is `false`, so a missing field type falls through all
branches and the value is returned unchanged. -/
def parseValueO (value : Str) : Option FieldType → Value
  | some t => parseValue value t
  | none => .vstr value

/-- `instanceof`-test through an optional field lookup. -/
def fieldBoolO : Option Field → Bool
  | some f => boolLike f.type
  | none => false

/-- A single validation issue as reported by zod's `safeParse`. -/
structure Issue where
  path : List Str
  message : Str
deriving DecidableEq, Repr

/-- Result of the schema collaborator's safe-validate operation. -/
inductive VRes where
  | ok (data : Record) : VRes
  | fail (issues : List Issue) : VRes
deriving DecidableEq, Repr

/-- The structural part of a zod schema that the source discriminates on:
a plain object (with its shape and description), a `ZodEffects` wrapper
(refinement), or any other shape. -/
inductive SchemaCore where
  | object (shape : Shape) (desc : Option Str) : SchemaCore
  | effects (inner : SchemaCore) (desc : Option Str) : SchemaCore
  | other (desc : Option Str) : SchemaCore
deriving DecidableEq, Repr

/-- `schema.getDescription()` (reads the node's own `_def.description`). -/
def SchemaCore.descOf : SchemaCore → Option Str
  | .object _ d => d
  | .effects _ d => d
  | .other d => d

/-- A schema as consumed by the core: its structural part plus the opaque
safe-validate operation (`schema.safeParse`), which is total (never throws). -/
structure Schema where
  core : SchemaCore
  validate : Record → VRes

/-- Copy A's `unwrapSchema`: unwraps exactly one `ZodEffects` layer and only
when its inner schema is already an object; otherwise an object passes
through; anything else throws `'Unsupported schema type'`. -/
def unwrapSchemaA : SchemaCore → Except Str (Shape × Option Str)
  | .effects (.object sh d) _ => .ok (sh, d)
  | .object sh d => .ok (sh, d)
  | _ => .error (lit "Unsupported schema type")

/-- Copy B's `unwrapSchema`: recursively unwraps `ZodEffects` layers;
throws `'Unsupported schema type'` on anything that is not an object. -/
def unwrapSchemaB : SchemaCore → Except Str (Shape × Option Str)
  | .effects inner _ => unwrapSchemaB inner
  | .object sh d => .ok (sh, d)
  | .other _ => .error (lit "Unsupported schema type")

/-- Copy C's `resolveSchema` (same recursion as copy B's `unwrapSchema`). -/
def resolveSchemaC : SchemaCore → Except Str (Shape × Option Str)
  | .effects inner _ => resolveSchemaC inner
  | .object sh d => .ok (sh, d)
  | .other _ => .error (lit "Unsupported schema type")

/-- One console event: `console.log` or `console.error` with its text. -/
inductive Out where
  | log (s : Str) : Out
  | err (s : Str) : Out
deriving DecidableEq, Repr

/-- `instanceof ZodArray` through an optional field lookup. -/
def fieldArrayO : Option Field → Bool
  | some f => arrayInst f.type
  | none => false

/-- Copy A's alias table: `--key` plus the declared aliases, in field order. -/
def buildOptionsA (sh : Shape) : OptMap :=
  sh.foldl (fun m kf =>
    (kf.2.aliases).foldl (fun m a => mapSet m a kf.1)
      (mapSet m (lit "--" ++ kf.1) kf.1)) []

/-- Copy B's alias table: `--key`, the undocumented `-key`, then the declared
aliases, in field order. -/
def buildOptionsB (sh : Shape) : OptMap :=
  sh.foldl (fun m kf =>
    (kf.2.aliases).foldl (fun m a => mapSet m a kf.1)
      (mapSet (mapSet m (lit "--" ++ kf.1) kf.1) ('-' :: kf.1) kf.1)) []

/-- Copy C's alias table (same construction as copy B's, from `index.ts`). -/
def buildOptionsC (sh : Shape) : OptMap :=
  sh.foldl (fun m kf =>
    (kf.2.aliases).foldl (fun m a => mapSet m a kf.1)
      (mapSet (mapSet m (lit "--" ++ kf.1) kf.1) ('-' :: kf.1) kf.1)) []

/-- The greedy consumption loop for array options (the inline `while` in
copies A and B): collect the following tokens until one starts with `-` or
the input ends.  `fuel` bounds the recursion; callers pass `args.length`,
which always suffices. -/
def consumeGreedy (fuel : Nat) (args : List Str) (i : Nat) : List Str :=
  match fuel with
  | 0 => []
  | fuel + 1 =>
    match args[i]? with
    | none => []
    | some a => if startsWithL (lit "-") a then [] else a :: consumeGreedy fuel args (i + 1)

/-- Copy A's combined-short-flag loop (`for (const flag of flags)`): `i0` is
the index of the combined token and `consumed` counts the value tokens
consumed so far (copy A's mutable `i` equals `i0 + consumed`).  Returns
`none` after emitting the error on failure, otherwise the updated record,
processed-index set and final consumed count. -/
def combinedA (args : List Str) (sh : Shape) (opts : OptMap) :
    List Char → Nat → Nat → Record → List Nat → List Out →
    List Out × Option (Record × List Nat × Nat)
  | [], _, consumed, rec, proc, outs => (outs, some (rec, proc, consumed))
  | f :: rest, i0, consumed, rec, proc, outs =>
    let flagArg : Str := ['-', f]
    match mapGet opts flagArg with
    | none => (outs ++ [.err (lit "Unknown option: " ++ flagArg)], none)
    | some k =>
      let ft := shapeGet sh k
      if fieldBoolO ft then
        combinedA args sh opts rest i0 consumed (setKey rec k (.vbool true)) proc outs
      else
        match args[i0 + consumed + 1]? with
        | none => (outs ++ [.err (lit "Option " ++ flagArg ++ lit " requires a value")], none)
        | some v =>
          if startsWithL (lit "-") v then
            (outs ++ [.err (lit "Option " ++ flagArg ++ lit " requires a value")], none)
          else
            combinedA args sh opts rest i0 (consumed + 1)
              (setKey rec k (parseValueO v (ft.map (·.type))))
              ((i0 + consumed + 1) :: proc) outs

/-- Copy A's main token scan (`while (i < args.length)` in the first
`parseArgs`).  Returns the accumulated output and, on success, the assembled
record with the processed-index set; `none` models `return null`.  `fuel`
bounds the recursion; the entry point passes `args.length + 1`, which always
suffices because every iteration advances the index, so the fuel-exhausted
case (which returns like the loop exit) is never reached. -/
def loopA (args : List Str) (sh : Shape) (opts : OptMap) :
    Nat → Nat → Record → List Nat → List Out →
    List Out × Option (Record × List Nat)
  | 0, _, rec, proc, outs => (outs, some (rec, proc))
  | fuel + 1, i, rec, proc, outs =>
    match args[i]? with
    | none => (outs, some (rec, proc))
    | some arg0 =>
      if startsWithL (lit "--") arg0 then
        let (arg, value) := splitEq arg0
        match mapGet opts arg with
        | none => (outs ++ [.err (lit "Unknown option: " ++ arg)], none)
        | some k =>
          let proc := i :: proc
          let ft := shapeGet sh k
          if fieldBoolO ft then
            loopA args sh opts fuel (i + 1)
              (setKey rec k (.vbool (if strTruthy value then value == some (lit "true") else true)))
              proc outs
          else if fieldArrayO ft then
            let vs := consumeGreedy args.length args (i + 1)
            loopA args sh opts fuel (i + 1 + vs.length)
              (setKey rec k (.varr vs)) (List.range' (i + 1) vs.length ++ proc) outs
          else
            if strFalsy value then
              match args[i + 1]? with
              | none => (outs ++ [.err (lit "Option " ++ arg ++ lit " requires a value")], none)
              | some v =>
                if startsWithL (lit "-") v then
                  (outs ++ [.err (lit "Option " ++ arg ++ lit " requires a value")], none)
                else
                  loopA args sh opts fuel (i + 2)
                    (setKey rec k (parseValueO v (ft.map (·.type)))) ((i + 1) :: proc) outs
            else
              loopA args sh opts fuel (i + 1)
                (setKey rec k (parseValueO (value.getD []) (ft.map (·.type)))) proc outs
      else if startsWithL (lit "-") arg0 && decide (2 < arg0.length) then
        match combinedA args sh opts (arg0.drop 1) i 0 rec proc outs with
        | (outs, none) => (outs, none)
        | (outs, some (rec, proc, consumed)) =>
          loopA args sh opts fuel (i + consumed + 1) rec ((i + consumed) :: proc) outs
      else if startsWithL (lit "-") arg0 then
        -- single-dash branch: identical to the long branch except that copy A
        -- has no array case here (an array field falls into the scalar path)
        let (arg, value) := splitEq arg0
        match mapGet opts arg with
        | none => (outs ++ [.err (lit "Unknown option: " ++ arg)], none)
        | some k =>
          let proc := i :: proc
          let ft := shapeGet sh k
          if fieldBoolO ft then
            loopA args sh opts fuel (i + 1)
              (setKey rec k (.vbool (if strTruthy value then value == some (lit "true") else true)))
              proc outs
          else
            if strFalsy value then
              match args[i + 1]? with
              | none => (outs ++ [.err (lit "Option " ++ arg ++ lit " requires a value")], none)
              | some v =>
                if startsWithL (lit "-") v then
                  (outs ++ [.err (lit "Option " ++ arg ++ lit " requires a value")], none)
                else
                  loopA args sh opts fuel (i + 2)
                    (setKey rec k (parseValueO v (ft.map (·.type)))) ((i + 1) :: proc) outs
            else
              loopA args sh opts fuel (i + 1)
                (setKey rec k (parseValueO (value.getD []) (ft.map (·.type)))) proc outs
      else
        -- bare token: copy A silently marks it processed and moves on
        loopA args sh opts fuel (i + 1) rec (i :: proc) outs

/-- `args.filter((_, index) => !processedIndices.has(index))[0]`. -/
def firstUnprocessed (args : List Str) (proc : List Nat) : Option Str :=
  match ((List.range args.length).filter (fun j => !(proc.contains j))).head? with
  | some j => args[j]?
  | none => none

/-- The issue line `"  - <' -> '-joined path, or 'Input' if that is empty>: <message>"`
shared by all three validation-error renderers. -/
def issueLine (iss : Issue) : Str :=
  let pj := joinSep (lit " -> ") iss.path
  lit "  - " ++ (if pj.isEmpty then lit "Input" else pj) ++ lit ": " ++ iss.message

/-- Copy A's `displayValidationErrors`: a `console.error` per line. -/
def displayValidationErrorsA (issues : List Issue) : List Out :=
  .err (lit "Argument validation failed:") :: issues.map (fun iss => .err (issueLine iss))

/-- Copy B's `displayValidationErrors`: one `console.error` with the trimmed
newline-joined message. -/
def displayValidationErrorsB (issues : List Issue) : List Out :=
  [.err (trimStr (lit "Argument validation failed:" ++ ['\n'] ++
    (issues.map (fun iss => issueLine iss ++ ['\n'])).flatten))]

/-- Copy C's `showValidationErrors` (same rendering as copy B's). -/
def showValidationErrorsC (issues : List Issue) : List Out :=
  [.err (trimStr (lit "Argument validation failed:" ++ ['\n'] ++
    (issues.map (fun iss => issueLine iss ++ ['\n'])).flatten))]

/-- Copy A's `parseArgs`: unwrap, build the alias table, scan, report the
first unprocessed token, then validate.  `Except.error` models the exception
thrown by `unwrapSchema` escaping. -/
def parseArgsA (args : List Str) (schema : Schema) : Except Str (List Out × Option Record) :=
  match unwrapSchemaA schema.core with
  | .error e => .error e
  | .ok (sh, _) =>
    let opts := buildOptionsA sh
    match loopA args sh opts (args.length + 1) 0 [] [] [] with
    | (outs, none) => .ok (outs, none)
    | (outs, some (rec, proc)) =>
      match firstUnprocessed args proc with
      | some tok => .ok (outs ++ [.err (lit "Unknown argument: " ++ tok)], none)
      | none =>
        match schema.validate rec with
        | .fail issues => .ok (outs ++ displayValidationErrorsA issues, none)
        | .ok data => .ok (outs, some data)

/-- `(${alias}, ${alias})` suffix used by the help renderers. -/
def aliasTxt (aliases : List Str) : Str :=
  if aliases.isEmpty then [] else lit " (" ++ joinSep (lit ", ") aliases ++ lit ")"

/-- A registered command: schema, handler and command aliases.  The handler is
modelled by the error it throws (`none` = returns normally); the dispatcher
records every invocation in the run result. -/
structure CommandDef where
  schema : Schema
  handlerErr : Record → Option Str
  aliases : List Str

/-- The registry (`Record<string, CommandDefinition>`): insertion-ordered. -/
abbrev Commands := List (Str × CommandDef)

/-- `addCommand`: register or overwrite the entry for `name`. -/
def addCommand (cmds : Commands) (name : Str) (cd : CommandDef) : Commands :=
  if cmds.any (fun p => p.1 == name) then
    cmds.map (fun p => if p.1 == name then (name, cd) else p)
  else cmds ++ [(name, cd)]

/-- The observable effect of one `parse` call: the console output, the list of
records the handler was invoked with, and whether the source would loop
forever at the end of the recorded output. -/
structure RunResult where
  out : List Out
  calls : List Record
  hang : Bool
deriving DecidableEq, Repr

/-- Whether a modelled `parse` call ended with an exception escaping. -/
def runThrows : Except Str RunResult → Bool
  | .error _ => true
  | .ok _ => false

/-- One line of copy A's global help. -/
def cmdHelpLine (name : Str) (cd : CommandDef) : Str :=
  lit "  " ++ name ++ aliasTxt cd.aliases ++ lit ": " ++
    orDefaultStr cd.schema.core.descOf (lit "No description available")

/-- Copy A's `displayHelp` (global help, one `console.log` per line). -/
def displayHelpA (cmds : Commands) : List Out :=
  .log (lit "Available commands:") ::
    cmds.map (fun p => .log (cmdHelpLine p.1 p.2)) ++
    [.log (lit "\nUse --help with a command for more details.")]

/-- One option line of the per-command help. -/
def optionLine (k : Str) (f : Field) : Str :=
  lit "  --" ++ k ++ aliasTxt f.aliases ++ lit " " ++
    (if isOptionalF f.type then lit "(optional)" else lit "(required)") ++
    lit ": " ++ orDefaultStr f.desc (lit "No description available")

/-- The pure rendering of copy A's per-command help. -/
def commandHelpLinesA (name : Str) (sh : Shape) (desc : Option Str) : List Out :=
  .log (lit "\nUsage: " ++ name ++ lit " [options]\n") ::
    .log (orDefaultStr desc (lit "No description available") ++ lit "\nOptions:") ::
    sh.map (fun kf => .log (optionLine kf.1 kf.2)) ++
    [.log (lit "\nExamples:")]

/-- Copy A's `displayHelpForCommand` (unwraps, hence can throw). -/
def displayHelpForCommandA (name : Str) (core : SchemaCore) : Except Str (List Out) :=
  match unwrapSchemaA core with
  | .error e => .error e
  | .ok (sh, d) => .ok (commandHelpLinesA name sh d)

/-- Copy A's `parse` dispatcher. -/
def parseA (cmds : Commands) (args : List Str) : Except Str RunResult :=
  match args with
  | [] => .ok ⟨displayHelpA cmds, [], false⟩
  | sub :: options =>
    match cmds.find? (fun p => (p.1 :: p.2.aliases).contains sub) with
    | none =>
      if sub == lit "--help" then .ok ⟨displayHelpA cmds, [], false⟩
      else .ok ⟨.err (lit "Unknown command: " ++ sub) :: displayHelpA cmds, [], false⟩
    | some (name, cd) =>
      if options.contains (lit "--help") then
        match displayHelpForCommandA name cd.schema.core with
        | .error e => .error e
        | .ok h => .ok ⟨h, [], false⟩
      else
        match parseArgsA options cd.schema with
        | .error e => .error e
        | .ok (outs, none) =>
          match displayHelpForCommandA name cd.schema.core with
          | .error e => .error e
          | .ok h => .ok ⟨outs ++ h, [], false⟩
        | .ok (outs, some rec) =>
          match cd.handlerErr rec with
          | none => .ok ⟨outs, [rec], false⟩
          | some m =>
            .ok ⟨outs ++ [.err (lit "An error occurred while executing the command: " ++ m)],
                 [rec], false⟩

/-- Result of `parseOption` (copy B) and `processOptionValue` (copy C): on
success, the resolved key, its field, the optional inline/consumed value and
`adv` such that `newIndex = i + adv` (`adv = 0` for boolean and array fields,
`1` for an inline `=` value, `2` when the following token was consumed).
The `processedIndices` set threaded by the source is never read in these two
copies, so it is not modelled. -/
inductive PORes where
  | success (k : Str) (f : Field) (value : Option Str) (adv : Nat) : PORes
  | failure : PORes
deriving DecidableEq, Repr

/-- Copy B's `parseOption` helper.  The returned `Bool` records whether
`this.shouldDisplayHelp = true` was executed. -/
def parseOptionB (arg0 : Str) (args : List Str) (i : Nat) (opts : OptMap) (sh : Shape) :
    List Out × Bool × PORes :=
  let (arg, value) := splitEq arg0
  match mapGet opts arg with
  | none => ([.err (lit "Unknown option: " ++ arg)], true, .failure)
  | some k =>
    match shapeGet sh k with
    | none => ([.err (lit "Unknown option: " ++ arg)], true, .failure)
    | some f =>
      if boolLike f.type then
        ([], false, .success k f (if strTruthy value then value else some (lit "true")) 0)
      else if arrayInst f.type then
        ([], false, .success k f none 0)
      else if strFalsy value then
        match args[i + 1]? with
        | none => ([.err (lit "Option " ++ arg ++ lit " requires a value")], true, .failure)
        | some t =>
          if startsWithL (lit "-") t then
            ([.err (lit "Option " ++ arg ++ lit " requires a value")], true, .failure)
          else ([], false, .success k f (some t) 2)
      else ([], false, .success k f value 1)

/-- Copy B's combined-short-flag loop.  `base` is the index one past the
combined token (the source's `i` after its initial `i++`), `consumed` counts
the value tokens eaten so far; `parseOption` is invoked at `i - 1` exactly as
in the source.  `none` models `return null`. -/
def combinedB (args : List Str) (sh : Shape) (opts : OptMap) :
    List Char → Nat → Nat → Record → List Out → Bool →
    List Out × Bool × Option (Record × Nat)
  | [], _, consumed, rec, outs, flag => (outs, flag, some (rec, consumed))
  | f :: rest, base, consumed, rec, outs, flag =>
    match parseOptionB ['-', f] args (base + consumed - 1) opts sh with
    | (o, fl, .failure) => (outs ++ o, flag || fl, none)
    | (o, fl, .success k fld _ _) =>
      if boolLike fld.type then
        combinedB args sh opts rest base consumed (setKey rec k (.vbool true)) (outs ++ o) (flag || fl)
      else
        match args[base + consumed]? with
        | none =>
          (outs ++ o ++ [.err (lit "Option " ++ ['-', f] ++ lit " requires a value")], true, none)
        | some v =>
          if startsWithL (lit "-") v then
            (outs ++ o ++ [.err (lit "Option " ++ ['-', f] ++ lit " requires a value")], true, none)
          else
            combinedB args sh opts rest base (consumed + 1)
              (setKey rec k (parseValue v fld.type)) (outs ++ o) (flag || fl)

/-- Loop state of copy B's `parseArgs` scan: completed, `return null`, or the
point at which the source would loop forever. -/
inductive BState where
  | ok (rec : Record) : BState
  | fail : BState
  | hang : BState
deriving DecidableEq, Repr

/-- Copy B's main token scan (the `while` in the second `parseArgs`).
`fuel` bounds the recursion; the entry point passes `args.length + 1`,
which always suffices. -/
def loopB (args : List Str) (sh : Shape) (opts : OptMap) :
    Nat → Nat → Record → List Out → Bool → List Out × Bool × BState
  | 0, _, rec, outs, flag => (outs, flag, .ok rec)
  | fuel + 1, i, rec, outs, flag =>
    match args[i]? with
    | none => (outs, flag, .ok rec)
    | some arg0 =>
      if startsWithL (lit "--") arg0 then
        match parseOptionB arg0 args i opts sh with
        | (o, fl, .failure) => (outs ++ o, flag || fl, .fail)
        | (o, fl, .success k f value adv) =>
          if boolLike f.type then
            loopB args sh opts fuel (i + adv + 1)
              (setKey rec k (.vbool (value == some (lit "true")))) (outs ++ o) (flag || fl)
          else if arrayInst f.type then
            -- the source's `if (value) { value.split(',') }` branch is
            -- unreachable: `parseOption` returns no value for array fields
            -- (lemma `parseOptionB_array_no_value`), so only the greedy loop
            -- from `i + 1` runs
            loopB args sh opts fuel (i + adv + 1 + (consumeGreedy args.length args (i + adv + 1)).length)
              (setKey rec k (.varr (consumeGreedy args.length args (i + adv + 1)))) (outs ++ o) (flag || fl)
          else
            loopB args sh opts fuel (i + adv)
              (setKey rec k (parseValue (value.getD []) f.type)) (outs ++ o) (flag || fl)
      else if startsWithL (lit "-") arg0 && decide (2 < arg0.length)
              && !(startsWithL (lit "--") arg0) then
        match combinedB args sh opts (arg0.drop 1) (i + 1) 0 rec outs flag with
        | (outs, flag, none) => (outs, flag, .fail)
        | (outs, flag, some (rec, consumed)) =>
          loopB args sh opts fuel (i + 1 + consumed) rec outs flag
      else if startsWithL (lit "-") arg0 then
        match parseOptionB arg0 args i opts sh with
        | (o, fl, .failure) => (outs ++ o, flag || fl, .fail)
        | (o, fl, .success k f value adv) =>
          if boolLike f.type then
            loopB args sh opts fuel (i + adv + 1)
              (setKey rec k (.vbool (value == some (lit "true")))) (outs ++ o) (flag || fl)
          else if arrayInst f.type then
            -- `i = result.newIndex` leaves `i` unchanged for an array field,
            -- so the source re-processes the same token forever
            (outs ++ o, flag || fl, .hang)
          else
            loopB args sh opts fuel (i + adv)
              (setKey rec k (parseValue (value.getD []) f.type)) (outs ++ o) (flag || fl)
      else
        (outs ++ [.err (lit "Unknown argument: " ++ arg0)], true, .fail)

/-- Copy B's `parseArgs`: result is `(output, record?, shouldDisplayHelp, hang)`.
The instance field `shouldDisplayHelp` starts `false` on a fresh instance. -/
def parseArgsB (args : List Str) (schema : Schema) :
    Except Str (List Out × Option Record × Bool × Bool) :=
  match unwrapSchemaB schema.core with
  | .error e => .error e
  | .ok (sh, _) =>
    let opts := buildOptionsB sh
    match loopB args sh opts (args.length + 1) 0 [] [] false with
    | (outs, flag, .fail) => .ok (outs, none, flag, false)
    | (outs, flag, .hang) => .ok (outs, none, flag, true)
    | (outs, flag, .ok rec) =>
      match schema.validate rec with
      | .fail issues => .ok (outs ++ displayValidationErrorsB issues, none, true, false)
      | .ok data => .ok (outs, some data, flag, false)

/-- Copy B's `displayHelp` (one aggregated `console.log`). -/
def displayHelpB (cmds : Commands) : List Out :=
  [.log (lit "Available commands:\n" ++
    (cmds.map (fun p => cmdHelpLine p.1 p.2 ++ ['\n'])).flatten ++
    lit "\nUse --help with a command for more details.")]

/-- The pure rendering of copy B's per-command help (one aggregated log). -/
def commandHelpLinesB (name : Str) (sh : Shape) (desc : Option Str) : List Out :=
  [.log (lit "\nUsage: " ++ name ++ lit " [options]\n\n" ++
    orDefaultStr desc (lit "No description available") ++ lit "\n\nOptions:\n" ++
    (sh.map (fun kf => optionLine kf.1 kf.2 ++ ['\n'])).flatten ++
    lit "\nExamples:")]

/-- Copy B's `displayHelpForCommand` (unwraps, hence can throw). -/
def displayHelpForCommandB (name : Str) (core : SchemaCore) : Except Str (List Out) :=
  match unwrapSchemaB core with
  | .error e => .error e
  | .ok (sh, d) => .ok (commandHelpLinesB name sh d)

/-- Copy B's `parse` dispatcher (fresh instance: `shouldDisplayHelp = false`). -/
def parseB (cmds : Commands) (args : List Str) : Except Str RunResult :=
  match args with
  | [] => .ok ⟨displayHelpB cmds, [], false⟩
  | sub :: options =>
    match cmds.find? (fun p => (p.1 :: p.2.aliases).contains sub) with
    | none =>
      if sub == lit "--help" then .ok ⟨displayHelpB cmds, [], false⟩
      else .ok ⟨.err (lit "Unknown command: " ++ sub) :: displayHelpB cmds, [], false⟩
    | some (name, cd) =>
      if options.contains (lit "--help") then
        match displayHelpForCommandB name cd.schema.core with
        | .error e => .error e
        | .ok h => .ok ⟨h, [], false⟩
      else
        match parseArgsB options cd.schema with
        | .error e => .error e
        | .ok (outs, res, flag, hg) =>
          if hg then .ok ⟨outs, [], true⟩
          else
            match res with
            | none =>
              if flag then
                match displayHelpForCommandB name cd.schema.core with
                | .error e => .error e
                | .ok h => .ok ⟨outs ++ h, [], false⟩
              else .ok ⟨outs, [], false⟩
            | some rec =>
              match cd.handlerErr rec with
              | none => .ok ⟨outs, [rec], false⟩
              | some m =>
                .ok ⟨outs ++ [.err (lit "An error occurred while executing the command: " ++ m)],
                     [rec], false⟩

/-- Copy C's `processOptionValue` helper (`src/src/index.ts`): textually the
same logic as copy B's `parseOption`. -/
def processOptionValueC (arg0 : Str) (args : List Str) (i : Nat) (opts : OptMap) (sh : Shape) :
    List Out × Bool × PORes :=
  let (arg, value) := splitEq arg0
  match mapGet opts arg with
  | none => ([.err (lit "Unknown option: " ++ arg)], true, .failure)
  | some k =>
    match shapeGet sh k with
    | none => ([.err (lit "Unknown option: " ++ arg)], true, .failure)
    | some f =>
      if boolLike f.type then
        ([], false, .success k f (if strTruthy value then value else some (lit "true")) 0)
      else if arrayInst f.type then
        ([], false, .success k f none 0)
      else if strFalsy value then
        match args[i + 1]? with
        | none => ([.err (lit "Option " ++ arg ++ lit " requires a value")], true, .failure)
        | some t =>
          if startsWithL (lit "-") t then
            ([.err (lit "Option " ++ arg ++ lit " requires a value")], true, .failure)
          else ([], false, .success k f (some t) 2)
      else ([], false, .success k f value 1)

/-- Copy C's `processArrayArgs`: collect tokens from `index` on while they do
not start with `-`.  It is always called with the option token's own index,
which starts with `-`, so it returns `[]` on every reachable call. -/
def processArrayArgsC (args : List Str) (i : Nat) : List Str :=
  consumeGreedy (args.length - i) args i

/-- Copy C's `processCombinedShortFlags`: unlike copy B, a failure does not
abort the surrounding scan — it stops the flag loop, sets the help flag, and
returns the index reached so far. -/
def processCombinedShortFlagsC (args : List Str) (sh : Shape) (opts : OptMap) :
    List Char → Nat → Nat → Record → List Out → Bool →
    List Out × Bool × Record × Nat
  | [], _, consumed, rec, outs, flag => (outs, flag, rec, consumed)
  | f :: rest, base, consumed, rec, outs, flag =>
    match processOptionValueC ['-', f] args (base + consumed - 1) opts sh with
    | (o, _, .failure) => (outs ++ o, true, rec, consumed)
    | (o, fl, .success k fld _ _) =>
      if boolLike fld.type then
        processCombinedShortFlagsC args sh opts rest base consumed
          (setKey rec k (.vbool true)) (outs ++ o) (flag || fl)
      else
        match args[base + consumed]? with
        | none =>
          (outs ++ o ++ [.err (lit "Option " ++ ['-', f] ++ lit " requires a value")], true, rec, consumed)
        | some v =>
          if startsWithL (lit "-") v then
            (outs ++ o ++ [.err (lit "Option " ++ ['-', f] ++ lit " requires a value")], true, rec, consumed)
          else
            processCombinedShortFlagsC args sh opts rest base (consumed + 1)
              (setKey rec k (parseValue v fld.type)) (outs ++ o) (flag || fl)

/-- Loop state of copy C's `processArguments` scan. -/
inductive CState where
  | ok (rec : Record) : CState
  | fail : CState
deriving DecidableEq, Repr

/-- Copy C's main token scan (the `for` loop in `processArguments`).  Note
that copy C has no single-short-option branch: a token like `-x` of length 2
falls through to `Unknown argument`. -/
def loopC (args : List Str) (sh : Shape) (opts : OptMap) :
    Nat → Nat → Record → List Out → Bool → List Out × Bool × CState
  | 0, _, rec, outs, flag => (outs, flag, .ok rec)
  | fuel + 1, i, rec, outs, flag =>
    match args[i]? with
    | none => (outs, flag, .ok rec)
    | some arg0 =>
      if startsWithL (lit "--") arg0 then
        match processOptionValueC arg0 args i opts sh with
        | (o, fl, .failure) => (outs ++ o, flag || fl, .fail)
        | (o, fl, .success k f value adv) =>
          if boolLike f.type then
            loopC args sh opts fuel (i + 1)
              (setKey rec k (.vbool (value == some (lit "true")))) (outs ++ o) (flag || fl)
          else if arrayInst f.type then
            -- `value ? value.split(',') : this.processArrayArgs(args, i)`:
            -- the value branch is unreachable (`processOptionValue` returns no
            -- value for array fields), and `processArrayArgs` starts at the
            -- option token itself, which begins with '-', so it returns []
            loopC args sh opts fuel (i + 1)
              (setKey rec k (if strTruthy value then .varr (splitOnChar ',' (value.getD []))
                             else .varr (processArrayArgsC args i))) (outs ++ o) (flag || fl)
          else
            -- `i = result.newIndex - 1`, then the for-loop's `i++`
            loopC args sh opts fuel (i + adv)
              (setKey rec k (parseValue (value.getD []) f.type)) (outs ++ o) (flag || fl)
      else if startsWithL (lit "-") arg0 && decide (2 < arg0.length) then
        match processCombinedShortFlagsC args sh opts (arg0.drop 1) (i + 1) 0 rec outs flag with
        | (outs, flag, rec, consumed) =>
          -- `i = this.processCombinedShortFlags(...) - 1`, then `i++`
          loopC args sh opts fuel (i + 1 + consumed) rec outs flag
      else
        (outs ++ [.err (lit "Unknown argument: " ++ arg0)], true, .fail)

/-- Copy C's `processArguments`. -/
def processArgumentsC (args : List Str) (schema : Schema) :
    Except Str (List Out × Option Record × Bool) :=
  match resolveSchemaC schema.core with
  | .error e => .error e
  | .ok (sh, _) =>
    let opts := buildOptionsC sh
    match loopC args sh opts (args.length + 1) 0 [] [] false with
    | (outs, flag, .fail) => .ok (outs, none, flag)
    | (outs, flag, .ok rec) =>
      match schema.validate rec with
      | .fail issues => .ok (outs ++ showValidationErrorsC issues, none, true)
      | .ok data => .ok (outs, some data, flag)

/-- Copy C's `displayHelp` (one aggregated log; no alias text). -/
def displayHelpC (cmds : Commands) : List Out :=
  [.log (lit "Available commands:\n" ++
    (cmds.map (fun p => lit "  " ++ p.1 ++ lit ": " ++
      orDefaultStr p.2.schema.core.descOf (lit "No description available") ++ ['\n'])).flatten ++
    lit "\nUse --help with a command for more details.")]

/-- The pure rendering of copy C's per-command help (same as copy B's). -/
def commandHelpLinesC (name : Str) (sh : Shape) (desc : Option Str) : List Out :=
  [.log (lit "\nUsage: " ++ name ++ lit " [options]\n\n" ++
    orDefaultStr desc (lit "No description available") ++ lit "\n\nOptions:\n" ++
    (sh.map (fun kf => optionLine kf.1 kf.2 ++ ['\n'])).flatten ++
    lit "\nExamples:")]

/-- Copy C's `displayHelpForCommand`. -/
def displayHelpForCommandC (name : Str) (core : SchemaCore) : Except Str (List Out) :=
  match resolveSchemaC core with
  | .error e => .error e
  | .ok (sh, d) => .ok (commandHelpLinesC name sh d)

/-- Copy C's `parse` dispatcher.  Its command lookup ignores aliases
(`[cmdName].includes(subcommand)` — the spread of aliases was dropped). -/
def parseC (cmds : Commands) (args : List Str) : Except Str RunResult :=
  match args with
  | [] => .ok ⟨displayHelpC cmds, [], false⟩
  | sub :: options =>
    match cmds.find? (fun p => [p.1].contains sub) with
    | none =>
      if sub == lit "--help" then .ok ⟨displayHelpC cmds, [], false⟩
      else .ok ⟨.err (lit "Unknown command: " ++ sub) :: displayHelpC cmds, [], false⟩
    | some (name, cd) =>
      if options.contains (lit "--help") then
        match displayHelpForCommandC name cd.schema.core with
        | .error e => .error e
        | .ok h => .ok ⟨h, [], false⟩
      else
        match processArgumentsC options cd.schema with
        | .error e => .error e
        | .ok (outs, res, flag) =>
          match res with
          | none =>
            if flag then
              match displayHelpForCommandC name cd.schema.core with
              | .error e => .error e
              | .ok h => .ok ⟨outs ++ h, [], false⟩
            else .ok ⟨outs, [], false⟩
          | some rec =>
            match cd.handlerErr rec with
            | none => .ok ⟨outs, [rec], false⟩
            | some m =>
              .ok ⟨outs ++ [.err (lit "An error occurred while executing the command: " ++ m)],
                   [rec], false⟩

/-! ### Concrete fixtures used by the theorems -/

/-- A schema whose safe-validate accepts any record unchanged. -/
def okSchema (core : SchemaCore) : Schema := ⟨core, fun r => .ok r⟩

/-- `z.object({})`. -/
def emptySchema : Schema := okSchema (.object [] none)

/-- `z.object({name: z.string()})`. -/
def nameSchema : Schema := okSchema (.object [(lit "name", ⟨.fstring, [], none⟩)] none)

/-- `z.object({age: z.number()})`. -/
def ageSchema : Schema := okSchema (.object [(lit "age", ⟨.fnumber, [], none⟩)] none)

/-- `z.object({flag: z.boolean()})`. -/
def flagSchema : Schema := okSchema (.object [(lit "flag", ⟨.fboolean, [], none⟩)] none)

/-- `z.object({tags: z.array(z.string()).describe('A list of tags')})`. -/
def tagsSchema : Schema :=
  okSchema (.object [(lit "tags", ⟨.farray .fstring, [], some (lit "A list of tags")⟩)] none)

/-- `z.object({x: z.boolean().optional()})`. -/
def xoptSchema : Schema := okSchema (.object [(lit "x", ⟨.foptional .fboolean, [], none⟩)] none)

/-- A schema that is neither a `ZodObject` nor a `ZodEffects` wrapper. -/
def unsupportedSchema : Schema := ⟨.other none, fun r => .ok r⟩

/-- A handler that returns normally. -/
def noopHandler : Record → Option Str := fun _ => none

/-- A registry with one command whose schema has an unsupported shape. -/
def cmdsUnsupported : Commands := [(lit "c", ⟨unsupportedSchema, noopHandler, []⟩)]

/-- A registry with one command over `xoptSchema`. -/
def cmdsXopt : Commands := [(lit "cmd", ⟨xoptSchema, noopHandler, []⟩)]

/-- A registry with one command over the empty object schema. -/
def cmdsEmpty : Commands := [(lit "c", ⟨emptySchema, noopHandler, []⟩)]

/-- `z.object({t: z.array(z.string())})`: a single-character array field key. -/
def tSchema : Schema := okSchema (.object [(lit "t", ⟨.farray .fstring, [], none⟩)] none)

/-- A registry with one command over `tSchema`. -/
def cmdsT : Commands := [(lit "cmd", ⟨tSchema, noopHandler, []⟩)]

/-- Booleans `alpha`, `beta`, `gamma` with single-character aliases a, b, c. -/
def abcShape : Shape :=
  [(lit "alpha", ⟨.fboolean, [['-', 'a']], none⟩),
   (lit "beta", ⟨.fboolean, [['-', 'b']], none⟩),
   (lit "gamma", ⟨.foptional .fboolean, [['-', 'c']], none⟩)]

/-- An issue with a two-component path. -/
def abIssue : Issue := ⟨[lit "a", lit "b"], lit "m"⟩

/-- The claim's asserted validation-error line: dot-joined path
(written from the spec's words, for comparison with `issueLine`). -/
def specIssueLineDot (iss : Issue) : Str :=
  lit "  - " ++ (if iss.path.isEmpty then lit "Input" else joinSep (lit ".") iss.path) ++
    lit ": " ++ iss.message

/-- A one-field boolean shape for the C8 witness. -/
def c8Shape : Shape := [(lit "x", ⟨.fboolean, [], none⟩)]

/-- The one-field number shape behind `ageSchema`, used by the C10 witness. -/
def ageShape : Shape := [(lit "age", ⟨.fnumber, [], none⟩)]

/-- `s` is nonempty and its last character is not whitespace. -/
def endsNonWS (s : Str) : Bool :=
  match s.reverse with
  | [] => false
  | c :: _ => !(isWS c)

/-! ### Helper lemmas (shared) -/

/-- A boolean-like field type is never an array. -/
theorem boolLike_not_array (t : FieldType) (h : boolLike t = true) : arrayInst t = false := by
  cases t <;> simp_all [boolLike, arrayInst]

/-- Splitting a separator-free string yields a single segment. -/
theorem splitOnCharAux_no_sep (c : Char) :
    ∀ (s acc : Str), c ∉ s → splitOnCharAux c s acc = [acc.reverse ++ s] := by
  intro s
  induction s with
  | nil => intro acc _; simp [splitOnCharAux]
  | cons x xs ih =>
    intro acc h
    rw [List.mem_cons] at h
    push_neg at h
    obtain ⟨h1, h2⟩ := h
    have hx : (x == c) = false := beq_eq_false_iff_ne.mpr (Ne.symm h1)
    simp only [splitOnCharAux, hx, Bool.false_eq_true, ite_false]
    rw [ih (x :: acc) h2]
    simp

/-- Splitting at the first separator occurrence. -/
theorem splitOnCharAux_sep (c : Char) :
    ∀ (xs ys acc : Str), c ∉ xs →
      splitOnCharAux c (xs ++ c :: ys) acc = (acc.reverse ++ xs) :: splitOnChar c ys := by
  intro xs
  induction xs with
  | nil =>
    intro ys acc _
    simp [splitOnCharAux, splitOnChar]
  | cons x xs ih =>
    intro ys acc h
    rw [List.mem_cons] at h
    push_neg at h
    obtain ⟨h1, h2⟩ := h
    have hx : (x == c) = false := beq_eq_false_iff_ne.mpr (Ne.symm h1)
    simp only [List.cons_append, splitOnCharAux, hx, Bool.false_eq_true, ite_false,
      List.append_eq]
    rw [ih ys (x :: acc) h2]
    simp

/-- `splitOnChar` at the first separator. -/
theorem splitOnChar_sep (c : Char) (xs ys : Str) (h : c ∉ xs) :
    splitOnChar c (xs ++ c :: ys) = xs :: splitOnChar c ys := by
  unfold splitOnChar
  rw [splitOnCharAux_sep c xs ys [] h]
  simp [splitOnChar]

/-- `splitOnChar` of a separator-free string. -/
theorem splitOnChar_no_sep (c : Char) (s : Str) (h : c ∉ s) : splitOnChar c s = [s] := by
  unfold splitOnChar
  rw [splitOnCharAux_no_sep c s [] h]
  simp

/-- The option-token destructuring on a token with two (or more) `=`:
the value is the text between the first and second `=`; everything after the
second `=` is discarded, whatever it contains. -/
theorem splitEq_two_seps (nm a b : Str) (hnm : '=' ∉ nm) (ha : '=' ∉ a) :
    splitEq (nm ++ '=' :: (a ++ '=' :: b)) = (nm, some a) := by
  have h1 : splitOnChar '=' (nm ++ '=' :: (a ++ '=' :: b)) = nm :: a :: splitOnChar '=' b := by
    rw [splitOnChar_sep _ _ _ hnm, splitOnChar_sep _ _ _ ha]
  have hc : (nm ++ '=' :: (a ++ '=' :: b)).contains '=' = true := by
    simp [List.mem_append]
  simp [splitEq, hc, h1]

/-- The option-token destructuring on a token with exactly one `=`. -/
theorem splitEq_one_sep (nm v : Str) (hnm : '=' ∉ nm) (hv : '=' ∉ v) :
    splitEq (nm ++ '=' :: v) = (nm, some v) := by
  have h1 : splitOnChar '=' (nm ++ '=' :: v) = [nm, v] := by
    rw [splitOnChar_sep _ _ _ hnm, splitOnChar_no_sep _ _ hv]
  have hc : (nm ++ '=' :: v).contains '=' = true := by
    simp [List.mem_append]
  simp [splitEq, hc, h1]

/-- Every failure of copy B's `parseOption` sets `shouldDisplayHelp`. -/
theorem parseOptionB_failure_flag (arg0 : Str) (args : List Str) (i : Nat) (opts : OptMap)
    (sh : Shape) (o : List Out) (fl : Bool)
    (h : parseOptionB arg0 args i opts sh = (o, fl, .failure)) : fl = true := by
  unfold parseOptionB at h
  repeat' split at h
  all_goals simp_all

/-- Every failure of copy C's `processOptionValue` sets `shouldDisplayHelp`. -/
theorem processOptionValueC_failure_flag (arg0 : Str) (args : List Str) (i : Nat) (opts : OptMap)
    (sh : Shape) (o : List Out) (fl : Bool)
    (h : processOptionValueC arg0 args i opts sh = (o, fl, .failure)) : fl = true := by
  unfold processOptionValueC at h
  repeat' split at h
  all_goals simp_all

/-- Copy B's `parseOption` never returns an inline value for an array field:
the `value.split(',')` branch in `parseArgs` is dead code. -/
theorem parseOptionB_array_no_value (arg0 : Str) (args : List Str) (i : Nat) (opts : OptMap)
    (sh : Shape) (o : List Out) (fl : Bool) (k : Str) (f : Field) (v : Option Str) (adv : Nat)
    (h : parseOptionB arg0 args i opts sh = (o, fl, .success k f v adv))
    (ha : arrayInst f.type = true) : v = none := by
  unfold parseOptionB at h
  repeat' split at h
  all_goals simp_all [boolLike_not_array]

/-- Copy C's `processOptionValue` never returns an inline value for an array
field: the `value.split(',')` branch in `processArguments` is dead code. -/
theorem processOptionValueC_array_no_value (arg0 : Str) (args : List Str) (i : Nat)
    (opts : OptMap) (sh : Shape) (o : List Out) (fl : Bool) (k : Str) (f : Field)
    (v : Option Str) (adv : Nat)
    (h : processOptionValueC arg0 args i opts sh = (o, fl, .success k f v adv))
    (ha : arrayInst f.type = true) : v = none := by
  unfold processOptionValueC at h
  repeat' split at h
  all_goals simp_all [boolLike_not_array]

/-- Every failing exit of copy B's combined-short-flag loop sets
`shouldDisplayHelp`. -/
theorem combinedB_none_flag (args : List Str) (sh : Shape) (opts : OptMap) :
    ∀ (flags : List Char) (base consumed : Nat) (rec : Record) (outs : List Out)
      (flag : Bool) (outs' : List Out) (flag' : Bool),
      combinedB args sh opts flags base consumed rec outs flag = (outs', flag', none) →
      flag' = true := by
  intro flags
  induction flags with
  | nil => intro base consumed rec outs flag outs' flag' h; simp [combinedB] at h
  | cons f rest ih =>
    intro base consumed rec outs flag outs' flag' h
    unfold combinedB at h
    rcases hp : parseOptionB ['-', f] args (base + consumed - 1) opts sh with ⟨o, fl, res⟩
    cases res with
    | failure =>
      have hfl := parseOptionB_failure_flag _ _ _ _ _ _ _ hp
      rw [hp] at h
      simp only [Prod.mk.injEq] at h
      rw [← h.2.1, hfl]
      simp
    | success k fld value adv =>
      rw [hp] at h
      by_cases hb : boolLike fld.type = true
      · simp only [hb, if_true] at h
        exact ih _ _ _ _ _ _ _ h
      · simp only [hb, if_false, Bool.false_eq_true, ite_false] at h
        cases hget : args[base + consumed]? with
        | none =>
          rw [hget] at h
          simp only [Prod.mk.injEq] at h
          exact h.2.1.symm
        | some v =>
          rw [hget] at h
          by_cases hd : startsWithL (lit "-") v = true
          · simp only [hd, if_true] at h
            simp only [Prod.mk.injEq] at h
            exact h.2.1.symm
          · simp only [hd, Bool.false_eq_true, ite_false] at h
            exact ih _ _ _ _ _ _ _ h

/-- Every `return null` of copy B's scan sets `shouldDisplayHelp`. -/
theorem loopB_fail_flag (args : List Str) (sh : Shape) (opts : OptMap) :
    ∀ (fuel i : Nat) (rec : Record) (outs : List Out) (flag : Bool)
      (outs' : List Out) (flag' : Bool),
      loopB args sh opts fuel i rec outs flag = (outs', flag', .fail) → flag' = true := by
  intro fuel
  induction fuel with
  | zero => intro i rec outs flag outs' flag' h; simp [loopB] at h
  | succ fuel ih =>
    intro i rec outs flag outs' flag' h
    unfold loopB at h
    cases hargs : args[i]? with
    | none => rw [hargs] at h; simp at h
    | some arg0 =>
      simp only [hargs] at h
      by_cases h1 : startsWithL (lit "--") arg0 = true
      · rw [if_pos h1] at h
        rcases hp : parseOptionB arg0 args i opts sh with ⟨o, fl, res⟩
        cases res with
        | failure =>
          have hfl := parseOptionB_failure_flag _ _ _ _ _ _ _ hp
          rw [hp] at h
          simp only [Prod.mk.injEq] at h
          rw [← h.2.1, hfl]
          simp
        | success k f value adv =>
          rw [hp] at h
          by_cases hb : boolLike f.type = true
          · simp only [hb, if_true] at h
            exact ih _ _ _ _ _ _ h
          · simp only [hb, Bool.false_eq_true, ite_false] at h
            by_cases ha : arrayInst f.type = true
            · simp only [ha, if_true] at h
              exact ih _ _ _ _ _ _ h
            · simp only [ha, Bool.false_eq_true, ite_false] at h
              exact ih _ _ _ _ _ _ h
      · rw [if_neg h1] at h
        by_cases h2 : (startsWithL (lit "-") arg0 && decide (2 < arg0.length)
            && !startsWithL (lit "--") arg0) = true
        · rw [if_pos h2] at h
          rcases hcb : combinedB args sh opts (arg0.drop 1) (i + 1) 0 rec outs flag
            with ⟨outs2, flag2, res2⟩
          rw [hcb] at h
          cases res2 with
          | none =>
            simp only [Prod.mk.injEq] at h
            rw [← h.2.1]
            exact combinedB_none_flag _ _ _ _ _ _ _ _ _ _ _ hcb
          | some p =>
            obtain ⟨rec2, consumed⟩ := p
            exact ih _ _ _ _ _ _ h
        · rw [if_neg h2] at h
          by_cases h3 : startsWithL (lit "-") arg0 = true
          · rw [if_pos h3] at h
            rcases hp : parseOptionB arg0 args i opts sh with ⟨o, fl, res⟩
            cases res with
            | failure =>
              have hfl := parseOptionB_failure_flag _ _ _ _ _ _ _ hp
              rw [hp] at h
              simp only [Prod.mk.injEq] at h
              rw [← h.2.1, hfl]
              simp
            | success k f value adv =>
              rw [hp] at h
              by_cases hb : boolLike f.type = true
              · simp only [hb, if_true] at h
                exact ih _ _ _ _ _ _ h
              · simp only [hb, Bool.false_eq_true, ite_false] at h
                by_cases ha : arrayInst f.type = true
                · simp only [ha, if_true] at h
                  simp at h
                · simp only [ha, Bool.false_eq_true, ite_false] at h
                  exact ih _ _ _ _ _ _ h
          · rw [if_neg h3] at h
            simp only [Prod.mk.injEq] at h
            exact h.2.1.symm

/-- Every `return null` of copy C's scan sets `shouldDisplayHelp`. -/
theorem loopC_fail_flag (args : List Str) (sh : Shape) (opts : OptMap) :
    ∀ (fuel i : Nat) (rec : Record) (outs : List Out) (flag : Bool)
      (outs' : List Out) (flag' : Bool),
      loopC args sh opts fuel i rec outs flag = (outs', flag', .fail) → flag' = true := by
  intro fuel
  induction fuel with
  | zero => intro i rec outs flag outs' flag' h; simp [loopC] at h
  | succ fuel ih =>
    intro i rec outs flag outs' flag' h
    unfold loopC at h
    cases hargs : args[i]? with
    | none => rw [hargs] at h; simp at h
    | some arg0 =>
      simp only [hargs] at h
      by_cases h1 : startsWithL (lit "--") arg0 = true
      · rw [if_pos h1] at h
        rcases hp : processOptionValueC arg0 args i opts sh with ⟨o, fl, res⟩
        cases res with
        | failure =>
          have hfl := processOptionValueC_failure_flag _ _ _ _ _ _ _ hp
          rw [hp] at h
          simp only [Prod.mk.injEq] at h
          rw [← h.2.1, hfl]
          simp
        | success k f value adv =>
          rw [hp] at h
          by_cases hb : boolLike f.type = true
          · simp only [hb, if_true] at h
            exact ih _ _ _ _ _ _ h
          · simp only [hb, Bool.false_eq_true, ite_false] at h
            by_cases ha : arrayInst f.type = true
            · simp only [ha, if_true] at h
              exact ih _ _ _ _ _ _ h
            · simp only [ha, Bool.false_eq_true, ite_false] at h
              exact ih _ _ _ _ _ _ h
      · rw [if_neg h1] at h
        by_cases h2 : (startsWithL (lit "-") arg0 && decide (2 < arg0.length)) = true
        · rw [if_pos h2] at h
          rcases hcf : processCombinedShortFlagsC args sh opts (arg0.drop 1) (i + 1) 0 rec outs flag
            with ⟨outs2, flag2, rec2, consumed⟩
          rw [hcf] at h
          exact ih _ _ _ _ _ _ h
        · rw [if_neg h2] at h
          simp only [Prod.mk.injEq] at h
          exact h.2.1.symm

/-- When copy B's `parseArgs` returns `null` without hanging, the
`shouldDisplayHelp` flag is set. -/
theorem parseArgsB_none_flag (args : List Str) (sch : Schema) (outs : List Out) (flag : Bool)
    (h : parseArgsB args sch = .ok (outs, none, flag, false)) : flag = true := by
  unfold parseArgsB at h
  cases hu : unwrapSchemaB sch.core with
  | error e => rw [hu] at h; simp at h
  | ok p =>
    obtain ⟨sh, d⟩ := p
    simp only [hu] at h
    rcases hl : loopB args sh (buildOptionsB sh) (args.length + 1) 0 [] [] false
      with ⟨outs2, flag2, st⟩
    simp only [hl] at h
    cases st with
    | ok rec =>
      cases hv : sch.validate rec with
      | ok data => simp only [hv] at h; simp at h
      | fail issues => simp only [hv] at h; simp at h; exact h.2
    | fail =>
      simp only [Except.ok.injEq, Prod.mk.injEq] at h
      rw [← h.2.2.1]
      exact loopB_fail_flag _ _ _ _ _ _ _ _ _ _ hl
    | hang => simp at h

/-- When copy C's `processArguments` returns `null`, the `shouldDisplayHelp`
flag is set. -/
theorem processArgumentsC_none_flag (args : List Str) (sch : Schema) (outs : List Out)
    (flag : Bool)
    (h : processArgumentsC args sch = .ok (outs, none, flag)) : flag = true := by
  unfold processArgumentsC at h
  cases hu : resolveSchemaC sch.core with
  | error e => rw [hu] at h; simp at h
  | ok p =>
    obtain ⟨sh, d⟩ := p
    simp only [hu] at h
    rcases hl : loopC args sh (buildOptionsC sh) (args.length + 1) 0 [] [] false
      with ⟨outs2, flag2, st⟩
    simp only [hl] at h
    cases st with
    | ok rec =>
      cases hv : sch.validate rec with
      | ok data => simp only [hv] at h; simp at h
      | fail issues => simp only [hv] at h; simp at h; exact h.2
    | fail =>
      simp only [Except.ok.injEq, Prod.mk.injEq] at h
      rw [← h.2.2]
      exact loopC_fail_flag _ _ _ _ _ _ _ _ _ _ hl

/-! ### Claim theorems -/

/-- C1 counterexample: the claim that `parse` always *returns normally* fails
in two distinct ways.  First, with a registered command whose schema is
neither a `ZodObject` nor a `ZodEffects` wrapper, the
`Unsupported schema type` exception thrown by `unwrapSchema` escapes `parse`.
Second, even on a registry whose schemas all unwrap to objects (the
hypothesis of the amended theorem holds, third conjunct), `parse` need not
return at all: on `cmd -t` with `{t: z.array(...)}`, copy B's single-dash
branch sets `i = result.newIndex`, which leaves `i` unchanged for an array
field, so the source loops forever — recorded here as `hang = true` with no
further output and no handler call. -/
theorem C1_counterexample :
    (parseB cmdsUnsupported [lit "c"] = .error (lit "Unsupported schema type") ∧
     runThrows (parseB cmdsUnsupported [lit "c"]) = true) ∧
    (∀ p ∈ cmdsT, (unwrapSchemaB p.2.schema.core).isOk = true) ∧
    parseB cmdsT [lit "cmd", lit "-t"] = .ok ⟨[], [], true⟩ :=
  ⟨⟨by decide, by decide⟩, by decide, by decide⟩

/-- C1 (amended): for every registered command set whose schemas all unwrap
to an object shape (possibly through `ZodEffects` wrappers) and every input
token sequence, no exception escapes `parse`: unknown command, unknown
option, missing value, unknown argument, validation failure and handler
error are all reported only via the output channels.  This asserts
non-escape only, not termination: an unsupported schema shape makes `parse`
throw, and a single-dash token that resolves to an array field makes copy
B's scan loop forever — a run the model records with `hang = true` and this
theorem counts as a non-throwing outcome (see `C1_counterexample` for
both). -/
theorem C1_parse_no_escape (cmds : Commands) (args : List Str)
    (h : ∀ p ∈ cmds, (unwrapSchemaB p.2.schema.core).isOk = true) :
    runThrows (parseB cmds args) = false := by
  cases args with
  | nil => rfl
  | cons sub options =>
    unfold parseB
    cases hf : cmds.find? (fun p => (p.1 :: p.2.aliases).contains sub) with
    | none =>
      simp only [hf]
      by_cases hh : (sub == lit "--help") = true
      · simp only [hh, if_true]; rfl
      · simp only [hh, Bool.false_eq_true, ite_false]; rfl
    | some p =>
      obtain ⟨name, cd⟩ := p
      have hmem : (name, cd) ∈ cmds := List.mem_of_find?_eq_some hf
      have hok := h _ hmem
      obtain ⟨q, hq⟩ : ∃ q, unwrapSchemaB cd.schema.core = .ok q := by
        cases hu : unwrapSchemaB cd.schema.core with
        | error e => rw [hu] at hok; simp [Except.isOk, Except.toBool] at hok
        | ok q => exact ⟨q, rfl⟩
      obtain ⟨sh, d⟩ := q
      simp only [hf]
      by_cases hhelp : options.contains (lit "--help") = true
      · simp only [hhelp, if_true]
        unfold displayHelpForCommandB
        rw [hq]
        rfl
      · simp only [hhelp, Bool.false_eq_true, ite_false]
        have hargs : ∃ r, parseArgsB options cd.schema = .ok r := by
          unfold parseArgsB
          simp only [hq]
          rcases hloop : loopB options sh (buildOptionsB sh) (options.length + 1) 0 [] [] false
            with ⟨outs2, flag2, st⟩
          cases st with
          | ok rec =>
            cases sch : cd.schema.validate rec with
            | ok data => simp only [sch]; exact ⟨_, rfl⟩
            | fail issues => simp only [sch]; exact ⟨_, rfl⟩
          | fail => exact ⟨_, rfl⟩
          | hang => exact ⟨_, rfl⟩
        obtain ⟨⟨outs, res, flag, hg⟩, hr⟩ := hargs
        rw [hr]
        cases hg with
        | true => rfl
        | false =>
          simp only [Bool.false_eq_true, ite_false]
          cases res with
          | none =>
            cases flag with
            | false => rfl
            | true =>
              simp only [if_true]
              unfold displayHelpForCommandB
              rw [hq]
              rfl
          | some rec =>
            dsimp only
            cases cd.handlerErr rec with
            | none => rfl
            | some m => rfl

/-- C2 counterexample: the resolver copies are not behaviorally equivalent.
On the empty-object schema and tokens `["x"]`, copy A silently ignores the
bare token and succeeds with `{}` while copy B fails with
`Unknown argument: x`; on the array schema and tokens `["--tags","x"]`,
copy B succeeds with `{tags:["x"]}` while copy C resolves the array to `[]`
and fails with `Unknown argument: x`. -/
theorem C2_counterexample :
    parseArgsA [lit "x"] emptySchema = .ok ([], some []) ∧
    parseArgsB [lit "x"] emptySchema =
      .ok ([.err (lit "Unknown argument: x")], none, true, false) ∧
    parseArgsB [lit "--tags", lit "x"] tagsSchema =
      .ok ([], some [(lit "tags", .varr [lit "x"])], false, false) ∧
    processArgumentsC [lit "--tags", lit "x"] tagsSchema =
      .ok ([.err (lit "Unknown argument: x")], none, true) :=
  ⟨by decide, by decide, by decide, by decide⟩

/-- C2 (amended): the three resolver implementations are *not* behaviorally
equivalent (see `C2_counterexample`); the only behaviorally identical pair is
the option-token helper: copy B's `parseOption` and copy C's
`processOptionValue` agree on every input. -/
theorem C2_option_helpers_equal :
    ∀ (arg0 : Str) (args : List Str) (i : Nat) (opts : OptMap) (sh : Shape),
      parseOptionB arg0 args i opts sh = processOptionValueC arg0 args i opts sh := by
  intro arg0 args i opts sh
  rfl

/-- C3: evaluating the code at the failing input.  `--tags=tag1,tag2` resolves
`tags` to `[]` in both zli.ts copies (`parseOption` drops the inline value for
array fields, so the comma-split branch is dead and the greedy loop finds no
bare tokens), while the space-separated form resolves to `["tag1","tag2"]`;
the two forms are not equivalent, contradicting the claim, the spec and the
repository's own test `should handle comma-separated arrays`. -/
theorem C3_comma_array_dropped :
    parseArgsB [lit "--tags=tag1,tag2"] tagsSchema =
      .ok ([], some [(lit "tags", .varr [])], false, false) ∧
    parseArgsA [lit "--tags=tag1,tag2"] tagsSchema =
      .ok ([], some [(lit "tags", .varr [])]) ∧
    parseArgsB [lit "--tags", lit "tag1", lit "tag2"] tagsSchema =
      .ok ([], some [(lit "tags", .varr [lit "tag1", lit "tag2"])], false, false) ∧
    parseArgsA [lit "--tags", lit "tag1", lit "tag2"] tagsSchema =
      .ok ([], some [(lit "tags", .varr [lit "tag1", lit "tag2"])]) :=
  ⟨by decide, by decide, by decide, by decide⟩

/-- C4 counterexample: `--flag=yes` on a boolean field parses to the boolean
`false` (the branch computes `value === 'true'` directly), not to the string
`"yes"` passed through by the TypeCoercer as the claim asserts. -/
theorem C4_counterexample :
    parseArgsA [lit "--flag=yes"] flagSchema = .ok ([], some [(lit "flag", .vbool false)]) ∧
    parseArgsB [lit "--flag=yes"] flagSchema =
      .ok ([], some [(lit "flag", .vbool false)], false, false) ∧
    Value.vbool false ≠ Value.vstr (lit "yes") :=
  ⟨by decide, by decide, by decide⟩

/-- Witness for `C1_parse_no_escape` at a concrete registry and input. -/
theorem C1_parse_no_escape_witness :
    (∀ p ∈ cmdsEmpty, (unwrapSchemaB p.2.schema.core).isOk = true) ∧
    runThrows (parseB cmdsEmpty [lit "c", lit "--bad"]) = false := by
  have h : ∀ p ∈ cmdsEmpty, (unwrapSchemaB p.2.schema.core).isOk = true := by
    intro p hp
    simp only [cmdsEmpty, List.mem_singleton] at hp
    subst hp
    rfl
  exact ⟨h, C1_parse_no_escape _ _ h⟩

/-- C4 (amended): for every schema shape and every boolean-kind field
(plain boolean or optional-wrapped boolean, `boolLike`), in both zli.ts
copies: the option given without `=value` sets the field to `true`; an
explicit `--name=v` with a nonempty, `=`-free value string `v` sets the
field to the boolean result of the literal comparison `v === 'true'`:
`true` for `"true"`, `false` for `"false"` *and* for every other value
string (`--flag=yes` sets `false`, see `C4_counterexample`); the
TypeCoercer (`parseValue`) is not consulted on the boolean path, so no
string is passed through unchanged.  (Values containing `=` are covered by
C9; the observation is through an accepting validator.) -/
theorem C4_bool_assignment (sh : Shape) (d : Option Str) (nm v k : Str) (f : Field)
    (hnm : '=' ∉ nm) (hv : v ≠ []) (hveq : '=' ∉ v)
    (hkA : mapGet (buildOptionsA sh) ('-' :: '-' :: nm) = some k)
    (hkB : mapGet (buildOptionsB sh) ('-' :: '-' :: nm) = some k)
    (hf : shapeGet sh k = some f)
    (hb : boolLike f.type = true) :
    parseArgsA [('-' :: '-' :: nm)] ⟨.object sh d, fun r => .ok r⟩ =
      .ok ([], some [(k, .vbool true)]) ∧
    parseArgsB [('-' :: '-' :: nm)] ⟨.object sh d, fun r => .ok r⟩ =
      .ok ([], some [(k, .vbool true)], false, false) ∧
    parseArgsA [('-' :: '-' :: nm) ++ '=' :: v] ⟨.object sh d, fun r => .ok r⟩ =
      .ok ([], some [(k, .vbool (v == lit "true"))]) ∧
    parseArgsB [('-' :: '-' :: nm) ++ '=' :: v] ⟨.object sh d, fun r => .ok r⟩ =
      .ok ([], some [(k, .vbool (v == lit "true"))], false, false) := by
  have hne : '=' ∉ '-' :: '-' :: nm := by
    simp [hnm, (by decide : ¬(('=' : Char) = '-'))]
  have hsplit0 : splitEq ('-' :: '-' :: nm) = ('-' :: '-' :: nm, none) := by
    have hc : (('-' :: '-' :: nm).contains '=') = false := by
      simp [hne]
    unfold splitEq
    rw [hc]
    simp
  have hsplit1 : splitEq ('-' :: '-' :: (nm ++ '=' :: v)) = ('-' :: '-' :: nm, some v) := by
    have h := splitEq_one_sep ('-' :: '-' :: nm) v hne hveq
    simpa using h
  have htr : strTruthy (some v) = true := by simp [strTruthy, strFalsy, hv]
  have hr1 : List.range 1 = [0] := rfl
  refine ⟨?_, ?_, ?_, ?_⟩
  · simp [parseArgsA, unwrapSchemaA, loopA, hsplit0, startsWithL, lit, hkA, hf, hb,
      fieldBoolO, strTruthy, strFalsy, hr1, firstUnprocessed, List.contains, setKey]
  · simp [parseArgsB, unwrapSchemaB, loopB, parseOptionB, hsplit0, startsWithL, lit,
      hkB, hf, hb, strTruthy, strFalsy, setKey]
  · simp [parseArgsA, unwrapSchemaA, loopA, hsplit1, startsWithL, lit, hkA, hf, hb,
      fieldBoolO, htr, hr1, firstUnprocessed, List.contains, setKey]
  · simp [parseArgsB, unwrapSchemaB, loopB, parseOptionB, hsplit1, startsWithL, lit,
      hkB, hf, hb, htr, setKey]

/-- Witness for `C4_bool_assignment` at the optional-wrapped boolean field
`{x: z.boolean().optional()}` with value `"yes"`. -/
theorem C4_bool_assignment_witness :
    parseArgsA [lit "--x"] xoptSchema = .ok ([], some [(lit "x", .vbool true)]) ∧
    parseArgsB [lit "--x"] xoptSchema = .ok ([], some [(lit "x", .vbool true)], false, false) ∧
    parseArgsA [lit "--x=yes"] xoptSchema = .ok ([], some [(lit "x", .vbool false)]) ∧
    parseArgsB [lit "--x=yes"] xoptSchema =
      .ok ([], some [(lit "x", .vbool false)], false, false) := by
  have h := C4_bool_assignment [(lit "x", ⟨.foptional .fboolean, [], none⟩)] none (lit "x")
    (lit "yes") (lit "x") ⟨.foptional .fboolean, [], none⟩ (by decide) (by decide) (by decide)
    (by decide) (by decide) (by decide) (by decide)
  exact ⟨h.1, h.2.1, h.2.2.1, h.2.2.2⟩

/-- C9: in every copy, an option token containing two or more `=` characters
keeps only the text between the first and second `=` as the inline value and
silently discards the rest (`[arg, value] = arg.split('=')`): the general
destructuring law, plus end-to-end runs of all three resolvers on
`--name=v1=<anything>`, which parse `name` as the string `"v1"`. -/
theorem C9_double_equals (nm a b : Str) (hnm : '=' ∉ nm) (ha : '=' ∉ a) :
    splitEq (nm ++ '=' :: (a ++ '=' :: b)) = (nm, some a) ∧
    (∀ tail : Str,
      parseArgsA [lit "--name=v1=" ++ tail] nameSchema =
        .ok ([], some [(lit "name", .vstr (lit "v1"))]) ∧
      parseArgsB [lit "--name=v1=" ++ tail] nameSchema =
        .ok ([], some [(lit "name", .vstr (lit "v1"))], false, false) ∧
      processArgumentsC [lit "--name=v1=" ++ tail] nameSchema =
        .ok ([], some [(lit "name", .vstr (lit "v1"))], false)) := by
  refine ⟨splitEq_two_seps _ _ _ hnm ha, ?_⟩
  intro tail
  have hsplit : splitEq (lit "--name=v1=" ++ tail) = (lit "--name", some (lit "v1")) := by
    rw [show lit "--name=v1=" ++ tail = lit "--name" ++ '=' :: (lit "v1" ++ '=' :: tail) from rfl]
    exact splitEq_two_seps _ _ _ (by decide) (by decide)
  have hstart : startsWithL (lit "--") (lit "--name=v1=" ++ tail) = true := rfl
  refine ⟨?_, ?_, ?_⟩
  · simp only [parseArgsA, nameSchema, okSchema, unwrapSchemaA, List.length_cons,
      List.length_nil, loopA, List.getElem?_cons_zero, List.getElem?_cons_succ,
      List.getElem?_nil, hstart, if_true, hsplit]
    rfl
  · simp only [parseArgsB, nameSchema, okSchema, unwrapSchemaB, List.length_cons,
      List.length_nil, loopB, parseOptionB, List.getElem?_cons_zero, List.getElem?_cons_succ,
      List.getElem?_nil, hstart, if_true, hsplit]
    rfl
  · simp only [processArgumentsC, nameSchema, okSchema, resolveSchemaC, List.length_cons,
      List.length_nil, loopC, processOptionValueC, List.getElem?_cons_zero,
      List.getElem?_cons_succ, List.getElem?_nil, hstart, if_true, hsplit]
    rfl

/-- Witness for `C9_double_equals` at the concrete token `--name=v1=v2`. -/
theorem C9_double_equals_witness :
    splitEq (lit "--name=v1=v2") = (lit "--name", some (lit "v1")) ∧
    parseArgsA [lit "--name=v1=v2"] nameSchema =
      .ok ([], some [(lit "name", .vstr (lit "v1"))]) := by
  have h := C9_double_equals (lit "--name") (lit "v1") (lit "v2") (by decide) (by decide)
  exact ⟨h.1, (h.2 (lit "v2")).1⟩

/-- C10: any token beginning with `-` is treated as flag-shaped regardless of
content: a scalar option whose candidate value starts with `-` (for example
the negative number `-5`) fails with `Option <token> requires a value`
instead of consuming it, and the greedy array consumption stops before any
such token. -/
theorem C10_dash_is_flag_shaped (args : List Str) (i : Nat) (opts : OptMap) (sh : Shape)
    (arg : Str) (k : Str) (f : Field) (t : Str)
    (hne : ¬ arg.contains '=' = true)
    (hk : mapGet opts arg = some k) (hf : shapeGet sh k = some f)
    (hb : boolLike f.type = false) (ha : arrayInst f.type = false)
    (ht : args[i + 1]? = some t) (hd : startsWithL (lit "-") t = true) :
    parseOptionB arg args i opts sh =
      ([.err (lit "Option " ++ arg ++ lit " requires a value")], true, .failure) ∧
    (∀ (fuel : Nat) (args' : List Str) (j : Nat) (u : Str),
       args'[j]? = some u → startsWithL (lit "-") u = true →
       consumeGreedy fuel args' j = []) ∧
    parseArgsA [lit "--age", lit "-5"] ageSchema =
      .ok ([.err (lit "Option --age requires a value")], none) ∧
    parseArgsB [lit "--age", lit "-5"] ageSchema =
      .ok ([.err (lit "Option --age requires a value")], none, true, false) := by
  refine ⟨?_, ?_, by decide, by decide⟩
  · have hs : splitEq arg = (arg, none) := by
      unfold splitEq
      rw [if_neg hne]
    simp only [parseOptionB, hs, hk, hf, hb, ha, Bool.false_eq_true, ite_false,
      strFalsy, if_true, ht, hd]
  · intro fuel args' j u hu hd2
    cases fuel with
    | zero => rfl
    | succ fuel =>
      unfold consumeGreedy
      simp only [hu, hd2, if_true]

/-- Witness for `C10_dash_is_flag_shaped` at `--age -5` over `ageShape`. -/
theorem C10_dash_is_flag_shaped_witness :
    parseOptionB (lit "--age") [lit "--age", lit "-5"] 0 (buildOptionsB ageShape) ageShape =
      ([.err (lit "Option --age requires a value")], true, .failure) ∧
    consumeGreedy 2 [lit "--age", lit "-5"] 1 = [] := by
  have h := C10_dash_is_flag_shaped [lit "--age", lit "-5"] 0 (buildOptionsB ageShape) ageShape
    (lit "--age") (lit "age") ⟨.fnumber, [], none⟩ (lit "-5")
    (by decide) (by decide) (by decide) (by decide) (by decide) (by decide) (by decide)
  exact ⟨h.1, h.2.1 2 [lit "--age", lit "-5"] 1 (lit "-5") (by decide) (by decide)⟩

/-- JS `trim` of a string ending in a newline, when the string proper starts
and ends with non-whitespace, removes exactly that newline. -/
theorem trimStr_append_newline (x : Str)
    (hhead : ∃ c0 x0, x = c0 :: x0 ∧ isWS c0 = false)
    (hlast : ∃ xl cl, x = xl ++ [cl] ∧ isWS cl = false) :
    trimStr (x ++ ['\n']) = x := by
  obtain ⟨c0, x0, hx0, hws0⟩ := hhead
  obtain ⟨xl, cl, hxl, hwsl⟩ := hlast
  unfold trimStr
  have h1 : (x ++ ['\n']).dropWhile isWS = x ++ ['\n'] := by
    rw [hx0]
    simp [List.dropWhile_cons, hws0]
  rw [h1]
  have h2 : (x ++ ['\n']).reverse = '\n' :: x.reverse := by simp
  rw [h2]
  have h3 : ('\n' :: x.reverse).dropWhile isWS = x.reverse.dropWhile isWS := by
    simp [List.dropWhile_cons, isWS]
  rw [h3]
  have h4 : x.reverse.dropWhile isWS = x.reverse := by
    rw [hxl]
    simp [List.dropWhile_cons, hwsl]
  rw [h4]
  simp

theorem newline_shift (L : List Str) :
    ∀ h : Str, h ++ ['\n'] ++ (L.map (fun l => l ++ ['\n'])).flatten =
      (h ++ (L.map (fun l => '\n' :: l)).flatten) ++ ['\n'] := by
  induction L with
  | nil => intro h; simp
  | cons l ls ih =>
    intro h
    simp only [List.map_cons, List.flatten_cons]
    have := ih (h ++ '\n' :: l)
    simp only [List.append_assoc] at this ⊢
    simpa using this

theorem ends_nonws_extend (L : List Str)
    (hL : ∀ l ∈ L, ∃ ll cl, l = ll ++ [cl] ∧ isWS cl = false) :
    ∀ h : Str, (∃ hl ch, h = hl ++ [ch] ∧ isWS ch = false) →
      ∃ xl cl, h ++ (L.map (fun l => '\n' :: l)).flatten = xl ++ [cl] ∧ isWS cl = false := by
  induction L with
  | nil => intro h hh; simpa using hh
  | cons l ls ih =>
    intro h hh
    obtain ⟨ll, cl, hl, hws⟩ := hL l (List.mem_cons_self _ _)
    have hstep : ∃ hl2 ch2, h ++ '\n' :: l = hl2 ++ [ch2] ∧ isWS ch2 = false := by
      refine ⟨h ++ '\n' :: ll, cl, ?_, hws⟩
      rw [hl]
      simp
    have := ih (fun l2 hm => hL l2 (List.mem_cons_of_mem _ hm)) (h ++ '\n' :: l) hstep
    simp only [List.map_cons, List.flatten_cons]
    simpa [List.append_assoc] using this

theorem C6_counterexample :
    displayValidationErrorsA [abIssue] =
      [.err (lit "Argument validation failed:"), .err (lit "  - a -> b: m")] ∧
    issueLine abIssue ≠ specIssueLineDot abIssue :=
  ⟨by decide, by decide⟩

theorem C6_arrow_joined (issues : List Issue)
    (hmsg : ∀ iss ∈ issues, ∃ m0 c, iss.message = m0 ++ [c] ∧ isWS c = false) :
    displayValidationErrorsA issues =
      .err (lit "Argument validation failed:") ::
        issues.map (fun iss => .err (lit "  - " ++
          (if (joinSep (lit " -> ") iss.path).isEmpty then lit "Input"
           else joinSep (lit " -> ") iss.path) ++ (lit ": " ++ iss.message))) ∧
    (displayValidationErrorsA issues).length = issues.length + 1 ∧
    displayValidationErrorsB issues =
      [.err (lit "Argument validation failed:" ++
        (issues.map (fun iss => '\n' :: issueLine iss)).flatten)] := by
  refine ⟨by simp [displayValidationErrorsA, issueLine], by simp [displayValidationErrorsA], ?_⟩
  unfold displayValidationErrorsB
  rw [show lit "Argument validation failed:" ++ ['\n'] ++
        (issues.map (fun iss => issueLine iss ++ ['\n'])).flatten =
      (lit "Argument validation failed:" ++
        (issues.map (fun iss => '\n' :: issueLine iss)).flatten) ++ ['\n'] from by
    have := newline_shift (issues.map issueLine) (lit "Argument validation failed:")
    simpa [List.map_map, Function.comp] using this]
  rw [trimStr_append_newline]
  · exact ⟨'A', _, rfl, by decide⟩
  · have hlines : ∀ l ∈ issues.map issueLine, ∃ ll cl, l = ll ++ [cl] ∧ isWS cl = false := by
      intro l hm
      rw [List.mem_map] at hm
      obtain ⟨iss, hiss, rfl⟩ := hm
      obtain ⟨m0, c, hm0, hws⟩ := hmsg iss hiss
      have hline : issueLine iss = (lit "  - " ++
          (if (joinSep (lit " -> ") iss.path).isEmpty then lit "Input"
           else joinSep (lit " -> ") iss.path) ++ (lit ": " ++ m0)) ++ [c] := by
        simp [issueLine, hm0]
      exact ⟨_, c, hline, hws⟩
    have hh : ∃ hl ch, lit "Argument validation failed:" = hl ++ [ch] ∧ isWS ch = false :=
      ⟨lit "Argument validation failed", ':', by decide, by decide⟩
    have := ends_nonws_extend (issues.map issueLine) hlines (lit "Argument validation failed:") hh
    simpa [List.map_map, Function.comp] using this


/-- Witness for `C6_arrow_joined` at a single two-component-path issue. -/
theorem C6_arrow_joined_witness :
    (∀ iss ∈ [abIssue], ∃ m0 c, iss.message = m0 ++ [c] ∧ isWS c = false) ∧
    displayValidationErrorsB [abIssue] =
      [.err (lit "Argument validation failed:" ++
        (([abIssue].map (fun iss => '\n' :: issueLine iss)).flatten))] := by
  have h : ∀ iss ∈ [abIssue], ∃ m0 c, iss.message = m0 ++ [c] ∧ isWS c = false := by
    intro iss hm
    rw [List.mem_singleton] at hm
    subst hm
    exact ⟨[], 'm', by decide, by decide⟩
  exact ⟨h, (C6_arrow_joined [abIssue] h).2.2⟩

/-- `map.set` leaves lookups of other keys unchanged (update part). -/
theorem mapGet_map_other (a v x : Str) (hxa : x ≠ a) :
    ∀ m : OptMap,
      mapGet (m.map (fun p => if p.1 == a then (a, v) else p)) x = mapGet m x := by
  intro m
  induction m with
  | nil => simp [mapGet]
  | cons hd tl ih =>
    by_cases hhd : (hd.1 == a) = true
    · have hda : hd.1 = a := by simpa [beq_iff_eq] using hhd
      have h1 : (a == x) = false := beq_eq_false_iff_ne.mpr (Ne.symm hxa)
      have h2 : (hd.1 == x) = false := by rw [hda]; exact h1
      simp only [List.map_cons, hhd, if_true]
      simp only [mapGet, List.find?, h1, h2] at ih ⊢
      exact ih
    · have hhdf : (hd.1 == a) = false := by simpa using hhd
      simp only [List.map_cons, hhdf, Bool.false_eq_true, ite_false]
      by_cases hx : (hd.1 == x) = true
      · simp [mapGet, List.find?, hx]
      · have hxf : (hd.1 == x) = false := by simpa using hx
        simp only [mapGet, List.find?, hxf] at ih ⊢
        exact ih

/-- `map.set` on a present key updates its entry in place. -/
theorem mapGet_map_update (a v : Str) :
    ∀ m : OptMap, m.any (fun p => p.1 == a) = true →
      mapGet (m.map (fun p => if p.1 == a then (a, v) else p)) a = some v := by
  intro m
  induction m with
  | nil => intro h; simp at h
  | cons hd tl ih =>
    intro h
    by_cases hhd : (hd.1 == a) = true
    · simp [List.map_cons, hhd, mapGet, List.find?]
    · have hhdf : (hd.1 == a) = false := by simpa using hhd
      have htl : tl.any (fun p => p.1 == a) = true := by
        simpa [List.any_cons, hhdf] using h
      simp only [List.map_cons, hhdf, Bool.false_eq_true, ite_false]
      simp only [mapGet, List.find?, hhdf] at ih ⊢
      exact ih htl

/-- `map.set` on an absent key appends the new entry. -/
theorem mapGet_append_new (a v x : Str) :
    ∀ m : OptMap, m.any (fun p => p.1 == a) = false →
      mapGet (m ++ [(a, v)]) x = if x = a then some v else mapGet m x := by
  intro m
  induction m with
  | nil =>
    intro _
    by_cases hxa : x = a
    · subst hxa; simp [mapGet, List.find?]
    · have h1 : (a == x) = false := beq_eq_false_iff_ne.mpr (Ne.symm hxa)
      simp [mapGet, List.find?, h1, hxa]
  | cons hd tl ih =>
    intro h
    rw [List.any_cons] at h
    cases hb : (hd.1 == a) with
    | true => rw [hb] at h; simp at h
    | false =>
      rw [hb] at h
      simp only [Bool.false_or] at h
      by_cases hx : (hd.1 == x) = true
      · have hxa : x ≠ a := by
          intro e
          subst e
          rw [hx] at hb
          exact absurd hb (by simp)
        simp [mapGet, List.find?, hx, hxa]
      · have hxf : (hd.1 == x) = false := by simpa using hx
        have := ih h
        simp only [List.cons_append, mapGet, List.find?, hxf] at this ⊢
        exact this

/-- The `Map.get`/`Map.set` law: the last `set` for a key wins. -/
theorem mapGet_mapSet (m : OptMap) (a v x : Str) :
    mapGet (mapSet m a v) x = if x = a then some v else mapGet m x := by
  unfold mapSet
  by_cases hmem : m.any (fun p => p.1 == a) = true
  · rw [if_pos hmem]
    by_cases hxa : x = a
    · rw [if_pos hxa, hxa]
      exact mapGet_map_update a v m hmem
    · rw [if_neg hxa]
      exact mapGet_map_other a v x hxa m
  · rw [if_neg hmem]
    refine mapGet_append_new a v x m ?_
    cases hval : m.any (fun p => p.1 == a) with
    | true => exact absurd hval hmem
    | false => rfl

/-- Domain characterization of one `set`. -/
theorem mapGet_mapSet_isSome (m : OptMap) (a v x : Str) :
    (mapGet (mapSet m a v) x).isSome = true ↔ (x = a ∨ (mapGet m x).isSome = true) := by
  rw [mapGet_mapSet]
  by_cases hxa : x = a
  · simp [hxa]
  · simp [hxa]

/-- Domain characterization of registering a list of aliases. -/
theorem aliasFold_isSome (k : Str) :
    ∀ (as : List Str) (m : OptMap) (x : Str),
      (mapGet (as.foldl (fun m a => mapSet m a k) m) x).isSome = true ↔
        ((mapGet m x).isSome = true ∨ x ∈ as) := by
  intro as
  induction as with
  | nil => intro m x; simp
  | cons a as ih =>
    intro m x
    rw [List.foldl_cons, ih (mapSet m a k) x, mapGet_mapSet_isSome]
    simp [List.mem_cons]
    tauto

/-- The domain of copy A's alias table: exactly `--key` and the declared
aliases. -/
theorem buildOptionsA_isSome (sh : Shape) (tok : Str) :
    (mapGet (buildOptionsA sh) tok).isSome = true ↔
      ∃ kf ∈ sh, tok = lit "--" ++ kf.1 ∨ tok ∈ kf.2.aliases := by
  have main : ∀ (sh : Shape) (m : OptMap),
      (mapGet (sh.foldl (fun m kf =>
        (kf.2.aliases).foldl (fun m a => mapSet m a kf.1)
          (mapSet m (lit "--" ++ kf.1) kf.1)) m) tok).isSome = true ↔
        ((mapGet m tok).isSome = true ∨
          ∃ kf ∈ sh, tok = lit "--" ++ kf.1 ∨ tok ∈ kf.2.aliases) := by
    intro sh
    induction sh with
    | nil => intro m; simp
    | cons kf rest ih =>
      intro m
      rw [List.foldl_cons, ih, aliasFold_isSome, mapGet_mapSet_isSome]
      rw [List.exists_mem_cons_iff]
      itauto
  rw [buildOptionsA, main sh []]
  simp [mapGet]

/-- The domain of copy B's alias table: `--key`, the undocumented `-key`,
and the declared aliases. -/
theorem buildOptionsB_isSome (sh : Shape) (tok : Str) :
    (mapGet (buildOptionsB sh) tok).isSome = true ↔
      ∃ kf ∈ sh, tok = lit "--" ++ kf.1 ∨ tok = '-' :: kf.1 ∨ tok ∈ kf.2.aliases := by
  have main : ∀ (sh : Shape) (m : OptMap),
      (mapGet (sh.foldl (fun m kf =>
        (kf.2.aliases).foldl (fun m a => mapSet m a kf.1)
          (mapSet (mapSet m (lit "--" ++ kf.1) kf.1) ('-' :: kf.1) kf.1)) m) tok).isSome = true ↔
        ((mapGet m tok).isSome = true ∨
          ∃ kf ∈ sh, tok = lit "--" ++ kf.1 ∨ tok = '-' :: kf.1 ∨ tok ∈ kf.2.aliases) := by
    intro sh
    induction sh with
    | nil => intro m; simp
    | cons kf rest ih =>
      intro m
      rw [List.foldl_cons, ih, aliasFold_isSome, mapGet_mapSet_isSome, mapGet_mapSet_isSome]
      rw [List.exists_mem_cons_iff]
      itauto
  rw [buildOptionsB, main sh []]
  simp [mapGet]

/-- The domain of copy C's alias table (same construction as copy B's). -/
theorem buildOptionsC_isSome (sh : Shape) (tok : Str) :
    (mapGet (buildOptionsC sh) tok).isSome = true ↔
      ∃ kf ∈ sh, tok = lit "--" ++ kf.1 ∨ tok = '-' :: kf.1 ∨ tok ∈ kf.2.aliases := by
  have main : ∀ (sh : Shape) (m : OptMap),
      (mapGet (sh.foldl (fun m kf =>
        (kf.2.aliases).foldl (fun m a => mapSet m a kf.1)
          (mapSet (mapSet m (lit "--" ++ kf.1) kf.1) ('-' :: kf.1) kf.1)) m) tok).isSome = true ↔
        ((mapGet m tok).isSome = true ∨
          ∃ kf ∈ sh, tok = lit "--" ++ kf.1 ∨ tok = '-' :: kf.1 ∨ tok ∈ kf.2.aliases) := by
    intro sh
    induction sh with
    | nil => intro m; simp
    | cons kf rest ih =>
      intro m
      rw [List.foldl_cons, ih, aliasFold_isSome, mapGet_mapSet_isSome, mapGet_mapSet_isSome]
      rw [List.exists_mem_cons_iff]
      itauto
  rw [buildOptionsC, main sh []]
  simp [mapGet]


/-- C8: in the alias tables built by the second `parseArgs` copy (zli.ts) and
by `processArguments` (index.ts), every schema field key `k` is also
registered under the undocumented single-dash token `-k`, with no alias
declaration required; the first `parseArgs` copy's table contains exactly the
`--k` tokens and the declared aliases. -/
theorem C8_single_dash_registration (sh : Shape) :
    (∀ kf ∈ sh, (mapGet (buildOptionsB sh) ('-' :: kf.1)).isSome = true ∧
                (mapGet (buildOptionsC sh) ('-' :: kf.1)).isSome = true) ∧
    (∀ tok : Str, (mapGet (buildOptionsA sh) tok).isSome = true ↔
        ∃ kf ∈ sh, tok = lit "--" ++ kf.1 ∨ tok ∈ kf.2.aliases) ∧
    (∀ tok : Str, (mapGet (buildOptionsB sh) tok).isSome = true ↔
        ∃ kf ∈ sh, tok = lit "--" ++ kf.1 ∨ tok = '-' :: kf.1 ∨ tok ∈ kf.2.aliases) := by
  refine ⟨?_, fun tok => buildOptionsA_isSome sh tok, fun tok => buildOptionsB_isSome sh tok⟩
  intro kf hkf
  constructor
  · exact (buildOptionsB_isSome sh _).mpr ⟨kf, hkf, Or.inr (Or.inl rfl)⟩
  · exact (buildOptionsC_isSome sh _).mpr ⟨kf, hkf, Or.inr (Or.inl rfl)⟩

/-- Witness for `C8_single_dash_registration`: on a one-field shape with no
declared aliases, `-x` is in the B-table and `--x` is in the A-table. -/
theorem C8_single_dash_registration_witness :
    (mapGet (buildOptionsB c8Shape) ('-' :: lit "x")).isSome = true ∧
    (mapGet (buildOptionsA c8Shape) (lit "--" ++ lit "x")).isSome = true := by
  refine ⟨?_, ?_⟩
  · exact ((C8_single_dash_registration c8Shape).1 (lit "x", ⟨.fboolean, [], none⟩) (by decide)).1
  · exact ((C8_single_dash_registration c8Shape).2.1 _).mpr
      ⟨(lit "x", ⟨.fboolean, [], none⟩), by decide, Or.inl rfl⟩

/-- C7: in both zli.ts copies, for single-character aliases a, b, c that each
resolve to a boolean-kind field, the combined token `-abc` produces exactly
the same outcome as the three separate tokens `-a -b -c` (each flag set to
`true`); quantified over the schema shape, the declared lookups and the
validator. -/
theorem C7_combined_equiv (sh : Shape) (d : Option Str) (val : Record → VRes)
    (a b c : Char) (ka kb kc : Str) (fa fb fc : Field)
    (haD : a ≠ '-') (hbD : b ≠ '-') (hcD : c ≠ '-')
    (haE : a ≠ '=') (hbE : b ≠ '=') (hcE : c ≠ '=')
    (hkaA : mapGet (buildOptionsA sh) ['-', a] = some ka)
    (hkbA : mapGet (buildOptionsA sh) ['-', b] = some kb)
    (hkcA : mapGet (buildOptionsA sh) ['-', c] = some kc)
    (hkaB : mapGet (buildOptionsB sh) ['-', a] = some ka)
    (hkbB : mapGet (buildOptionsB sh) ['-', b] = some kb)
    (hkcB : mapGet (buildOptionsB sh) ['-', c] = some kc)
    (hfa : shapeGet sh ka = some fa) (hfb : shapeGet sh kb = some fb)
    (hfc : shapeGet sh kc = some fc)
    (hba : boolLike fa.type = true) (hbb : boolLike fb.type = true)
    (hbc : boolLike fc.type = true) :
    parseArgsA [['-', a, b, c]] ⟨.object sh d, val⟩ =
      parseArgsA [['-', a], ['-', b], ['-', c]] ⟨.object sh d, val⟩ ∧
    parseArgsB [['-', a, b, c]] ⟨.object sh d, val⟩ =
      parseArgsB [['-', a], ['-', b], ['-', c]] ⟨.object sh d, val⟩ := by
  have h1a : (('-' : Char) == a) = false := beq_eq_false_iff_ne.mpr (Ne.symm haD)
  have h1b : (('-' : Char) == b) = false := beq_eq_false_iff_ne.mpr (Ne.symm hbD)
  have h1c : (('-' : Char) == c) = false := beq_eq_false_iff_ne.mpr (Ne.symm hcD)
  have h2a : (('=' : Char) == a) = false := beq_eq_false_iff_ne.mpr (Ne.symm haE)
  have h2b : (('=' : Char) == b) = false := beq_eq_false_iff_ne.mpr (Ne.symm hbE)
  have h2c : (('=' : Char) == c) = false := beq_eq_false_iff_ne.mpr (Ne.symm hcE)
  have h3a : ¬(('=' : Char) = a) := Ne.symm haE
  have h3b : ¬(('=' : Char) = b) := Ne.symm hbE
  have h3c : ¬(('=' : Char) = c) := Ne.symm hcE
  have h4a : ¬(('-' : Char) = a) := Ne.symm haD
  have h4b : ¬(('-' : Char) = b) := Ne.symm hbD
  have h4c : ¬(('-' : Char) = c) := Ne.symm hcD
  have hr1 : List.range 1 = [0] := rfl
  have hr3 : List.range 3 = [0, 1, 2] := rfl
  constructor
  · simp [parseArgsA, unwrapSchemaA, loopA, combinedA, splitEq, startsWithL, lit,
      List.contains, h1a, h1b, h1c, h2a, h2b, h2c, h3a, h3b, h3c, h4a, h4b, h4c,
      hr1, hr3, hkaA, hkbA, hkcA, hfa, hfb, hfc, hba, hbb, hbc,
      fieldBoolO, strTruthy, strFalsy, firstUnprocessed]
  · simp [parseArgsB, unwrapSchemaB, loopB, combinedB, parseOptionB, splitEq, startsWithL, lit,
      List.contains, h1a, h1b, h1c, h2a, h2b, h2c, h3a, h3b, h3c, h4a, h4b, h4c,
      hkaB, hkbB, hkcB, hfa, hfb, hfc, hba, hbb, hbc,
      strTruthy, strFalsy]

/-- Witness for `C7_combined_equiv` on the concrete a/b/c boolean schema. -/
theorem C7_combined_equiv_witness :
    parseArgsA [lit "-abc"] ⟨.object abcShape none, fun r => .ok r⟩ =
      parseArgsA [lit "-a", lit "-b", lit "-c"] ⟨.object abcShape none, fun r => .ok r⟩ ∧
    parseArgsB [lit "-abc"] ⟨.object abcShape none, fun r => .ok r⟩ =
      parseArgsB [lit "-a", lit "-b", lit "-c"] ⟨.object abcShape none, fun r => .ok r⟩ := by
  exact C7_combined_equiv abcShape none (fun r => .ok r) 'a' 'b' 'c'
    (lit "alpha") (lit "beta") (lit "gamma")
    ⟨.fboolean, [['-', 'a']], none⟩ ⟨.fboolean, [['-', 'b']], none⟩
    ⟨.foptional .fboolean, [['-', 'c']], none⟩
    (by decide) (by decide) (by decide) (by decide) (by decide) (by decide)
    (by decide) (by decide) (by decide) (by decide) (by decide) (by decide)
    (by decide) (by decide) (by decide) (by decide) (by decide) (by decide)

/-- C5 counterexample: in `index.ts`, a failure inside the combined-short-flag
path reports the error and sets `shouldDisplayHelp`, but `processArguments`
keeps going; here `cmd -xq` reports `Unknown option: -q`, yet the run still
invokes the handler with `{x: true}` and renders no help at all. -/
theorem C5_counterexample :
    parseC cmdsXopt [lit "cmd", lit "-xq"] =
      .ok ⟨[.err (lit "Unknown option: -q")], [[(lit "x", .vbool true)]], false⟩ := by decide

/-- C5 (amended): whenever the resolver itself reports failure (returns no
record), each of the three dispatchers appends that command's help to the
resolver's output and returns without invoking the handler.  This leaves out
the `index.ts` combined-short-flag path, where a resolution failure does not
make `processArguments` return null (see the counterexample). -/
theorem C5_failure_renders_help (cmds : Commands) (sub : Str) (options : List Str)
    (name : Str) (cd : CommandDef)
    (shA shB shC : Shape) (dA dB dC : Option Str)
    (outsA outsB outsC : List Out) (flagB flagC : Bool)
    (hFindA : cmds.find? (fun p => (p.1 :: p.2.aliases).contains sub) = some (name, cd))
    (hFindC : cmds.find? (fun p => [p.1].contains sub) = some (name, cd))
    (hHelp : options.contains (lit "--help") = false)
    (hUnA : unwrapSchemaA cd.schema.core = .ok (shA, dA))
    (hUnB : unwrapSchemaB cd.schema.core = .ok (shB, dB))
    (hUnC : resolveSchemaC cd.schema.core = .ok (shC, dC))
    (hPA : parseArgsA options cd.schema = .ok (outsA, none))
    (hPB : parseArgsB options cd.schema = .ok (outsB, none, flagB, false))
    (hPC : processArgumentsC options cd.schema = .ok (outsC, none, flagC)) :
    parseA cmds (sub :: options) =
      .ok ⟨outsA ++ commandHelpLinesA name shA dA, [], false⟩ ∧
    parseB cmds (sub :: options) =
      .ok ⟨outsB ++ commandHelpLinesB name shB dB, [], false⟩ ∧
    parseC cmds (sub :: options) =
      .ok ⟨outsC ++ commandHelpLinesC name shC dC, [], false⟩ := by
  refine ⟨?_, ?_, ?_⟩
  · unfold parseA
    simp only [hFindA]
    rw [if_neg (by intro hc; rw [hc] at hHelp; cases hHelp)]
    simp only [hPA]
    unfold displayHelpForCommandA
    simp only [hUnA]
  · have hfB : flagB = true := parseArgsB_none_flag options cd.schema outsB flagB hPB
    subst hfB
    unfold parseB
    simp only [hFindA]
    rw [if_neg (by intro hc; rw [hc] at hHelp; cases hHelp)]
    simp only [hPB]
    unfold displayHelpForCommandB
    simp only [hUnB]
    rfl
  · have hfC : flagC = true := processArgumentsC_none_flag options cd.schema outsC flagC hPC
    subst hfC
    unfold parseC
    simp only [hFindC]
    rw [if_neg (by intro hc; rw [hc] at hHelp; cases hHelp)]
    simp only [hPC]
    unfold displayHelpForCommandC
    simp only [hUnC]
    rfl

/-- Witness for `C5_failure_renders_help` on `c --bad` over the empty object
schema: all three dispatchers report the unknown option and append the
per-command help, with no handler call. -/
theorem C5_failure_renders_help_witness :
    parseA cmdsEmpty [lit "c", lit "--bad"] =
      .ok ⟨[.err (lit "Unknown option: --bad")] ++ commandHelpLinesA (lit "c") [] none,
           [], false⟩ ∧
    parseB cmdsEmpty [lit "c", lit "--bad"] =
      .ok ⟨[.err (lit "Unknown option: --bad")] ++ commandHelpLinesB (lit "c") [] none,
           [], false⟩ ∧
    parseC cmdsEmpty [lit "c", lit "--bad"] =
      .ok ⟨[.err (lit "Unknown option: --bad")] ++ commandHelpLinesC (lit "c") [] none,
           [], false⟩ :=
  C5_failure_renders_help cmdsEmpty (lit "c") [lit "--bad"] (lit "c")
    ⟨emptySchema, noopHandler, []⟩ [] [] [] none none none
    [.err (lit "Unknown option: --bad")] [.err (lit "Unknown option: --bad")]
    [.err (lit "Unknown option: --bad")] true true
    (by rfl) (by rfl) (by decide) (by rfl) (by rfl) (by rfl)
    (by decide) (by decide) (by decide)

end ZliSpec

